import Mathlib

/-!
# Wahjam Qt client: `ninjam/qtclient/MainWindow.cpp`

A shallow embedding of the control-thread operations of `MainWindow`
(connect, disconnect, work-directory set-up and clean-up, status and chat
handling, the singleton reference) together with the properties that the
specification states about them.

Conventions of the embedding

* A `QString` is the list of its characters; `char *` strings handed over by
  the engine are taken as already decoded (`QString::fromUtf8` and
  `toUtf8().data()` are the identity), a `NULL` pointer is `none`.
* Qt library calls are embedded by their documented behaviour (Qt 4, the
  version whose API the source uses).
* The chat widget is the sequence of its entries, each given by the texts
  that the program hands to `append` and to `insertPlainText`; what the widget
  shows for an entry depends on the rich-text detection of `append`
  (`ChatLine.shown`).
* The state is passed explicitly.  Besides the fields of the class it carries
  the file system that the process sees and a ghost `trace` recording, in
  program order, every lock operation, every access to the shared `client`
  object and every emitted signal.
-/

namespace Wahjam

/-! ## Strings -/


/-- A `QString`, as the sequence of its characters. -/
abbrev QString := List Char

/-- The call `QString::isEmpty()`. -/
def isEmpty (s : QString) : Bool := s.isEmpty

/-- The call `QString::startsWith(pat)` (case sensitive). -/
def startsWith (s pat : QString) : Bool := pat.isPrefixOf s

/-- The call `QString::startsWith(pat, Qt::CaseInsensitive)`: both strings are
compared character by character after case folding with `fold`, the case
folding table of Qt. -/
def startsWithCI (fold : Char → Char) (s pat : QString) : Bool :=
  (pat.map fold).isPrefixOf (s.map fold)

/-- The test `QString::compare(other, Qt::CaseInsensitive) == 0`. -/
def equalsCI (fold : Char → Char) (s other : QString) : Bool :=
  decide (s.map fold = other.map fold)

/-- The call `QString::mid(pos)`. -/
def mid (s : QString) (pos : Nat) : QString := s.drop pos

/-- Case folding of the ASCII letters only; one admissible value of the
`fold` parameter, used to evaluate the model on concrete input. -/
def asciiFold (c : Char) : Char :=
  if 65 ≤ c.toNat ∧ c.toNat ≤ 90 then Char.ofNat (c.toNat + 32) else c

/-- Decimal value of an ASCII digit (`QChar::digitValue` on the characters
that occur in the format strings of the source). -/
def digitValue (c : Char) : Option Nat :=
  if 48 ≤ c.toNat ∧ c.toNat ≤ 57 then some (c.toNat - 48) else none

/-- A piece of a format string: a literal character, or a place marker
`%n` / `%nn` together with its source text. -/
inductive Tok where
  | lit (c : Char)
  | mark (n : Nat) (text : QString)
  deriving DecidableEq, Repr

/-- Scanner state of `tokens`: outside a marker, after a `%`, or after a `%`
and one digit of value `a` (written `d1`). -/
inductive Scan where
  | plain
  | percent
  | digit (a : Nat) (d1 : Char)

/-- Scanning of a format string for place markers, as `QString::arg` does: a
`%` followed by one digit, or by two digits, is a marker. -/
def scan : Scan → QString → List Tok
  | Scan.plain, [] => []
  | Scan.plain, c :: rest =>
    if c = '%' then scan Scan.percent rest else Tok.lit c :: scan Scan.plain rest
  | Scan.percent, [] => [Tok.lit '%']
  | Scan.percent, d1 :: rest =>
    match digitValue d1 with
    | some a => scan (Scan.digit a d1) rest
    | none =>
      if d1 = '%' then Tok.lit '%' :: scan Scan.percent rest
      else Tok.lit '%' :: Tok.lit d1 :: scan Scan.plain rest
  | Scan.digit a d1, [] => [Tok.mark a ['%', d1]]
  | Scan.digit a d1, d2 :: rest =>
    match digitValue d2 with
    | some b => Tok.mark (10 * a + b) ['%', d1, d2] :: scan Scan.plain rest
    | none =>
      if d2 = '%' then Tok.mark a ['%', d1] :: scan Scan.percent rest
      else Tok.mark a ['%', d1] :: Tok.lit d2 :: scan Scan.plain rest

/-- The tokens of a format string. -/
def tokens (fmt : QString) : List Tok := scan Scan.plain fmt

/-- The lowest marker number strictly above `lo` that occurs in a token list. -/
def lowestAbove (lo : Option Nat) : List Tok → Option Nat
  | [] => none
  | Tok.lit _ :: ts => lowestAbove lo ts
  | Tok.mark n _ :: ts =>
    let ok : Bool := match lo with
      | none => true
      | some l => decide (l < n)
    match lowestAbove lo ts with
    | none => if ok then some n else none
    | some m => if ok && decide (n < m) then some n else some m

/-- Rendering of a token list in which marker `n1` is replaced by `a1` and
marker `n2` by `a2`; the other markers keep their text. -/
def substitute (n1 : Option Nat) (a1 : QString) (n2 : Option Nat) (a2 : QString) :
    List Tok → QString
  | [] => []
  | Tok.lit c :: ts => c :: substitute n1 a1 n2 a2 ts
  | Tok.mark n text :: ts =>
    (if some n = n1 then a1 else if some n = n2 then a2 else text)
      ++ substitute n1 a1 n2 a2 ts

/-- The call `QString::arg(a)`: every occurrence of the lowest numbered place
marker is replaced by `a`. -/
def arg (fmt a : QString) : QString :=
  let ts := tokens fmt
  substitute (lowestAbove none ts) a none [] ts

/-- The call `QString::arg(a1, a2)`: the two lowest numbered place markers are
replaced by `a1` and `a2` in one pass. -/
def arg2 (fmt a1 a2 : QString) : QString :=
  let ts := tokens fmt
  let n1 := lowestAbove none ts
  let n2 := match n1 with
    | none => none
    | some l => lowestAbove (some l) ts
  substitute n1 a1 n2 a2 ts

/-- Decimal text of an `int`, as `QString::arg(int)` inserts it. -/
def number (i : Int) : QString :=
  if i < 0 then '-' :: Nat.toDigits 10 i.natAbs else Nat.toDigits 10 i.natAbs

/-- The call `QString::split(sep, QString::KeepEmptyParts)`: the fields
between the separators, empty ones included; never an empty list. -/
def split (sep : Char) : QString → List QString
  | [] => [[]]
  | c :: rest =>
    match split sep rest with
    | [] => [[]]
    | f :: fs => if c = sep then [] :: f :: fs else (c :: f) :: fs

/-- The loop of `QString::section`: `x` counts the fields passed so far (empty
ones are not counted under `SectionSkipEmpty`), `ret` collects the fields
numbered `start` to `stop`, joined by the separator. -/
def sectionLoop (sep : Char) (start stop : Int) (skipEmpty : Bool) :
    List QString → Int → QString → QString
  | [], _, ret => ret
  | sec :: rest, x, ret =>
    if x ≤ stop then
      let ret1 := if start ≤ x then (if start < x then ret ++ [sep] else ret) ++ sec else ret
      let x1 := if !sec.isEmpty || !skipEmpty then x + 1 else x
      sectionLoop sep start stop skipEmpty rest x1 ret1
    else ret

/-- The call `QString::section(sep, start, stop, flags)` where `flags` is
either `SectionDefault` or `SectionSkipEmpty`: negative positions count
fields from the right. -/
def qsection (s : QString) (sep : Char) (start stop : Int) (skipEmpty : Bool) : QString :=
  let sections := split sep s
  let skip : Int := if skipEmpty then ((sections.filter (fun f => f.isEmpty)).length : Int) else 0
  let count : Int := (sections.length : Int) - skip
  let start1 := if start < 0 then start + count else start
  let stop1 := if stop < 0 then stop + count else stop
  sectionLoop sep start1 stop1 skipEmpty sections 0 []

/-! ## File system -/


/-- What a path of the file system names. -/
inductive Kind where
  | file
  | dir
  deriving DecidableEq, Repr

/-- The file system that the process sees: the absolute paths that exist, each
with its kind.  The root directory is the entry `/`. -/
abbrev FileSystem := List (QString × Kind)

/-- Last component of a path: the text after its last `/`
(`QFileInfo::fileName`, `QDir::dirName`). -/
def fileName (path : QString) : QString :=
  (path.reverse.takeWhile (fun c => c ≠ '/')).reverse

/-- The path without its last component (`QFileInfo::absolutePath`); the parent
of a top-level entry is the root `/`. -/
def parentPath (path : QString) : QString :=
  let d := ((path.reverse.dropWhile (fun c => c ≠ '/')).drop 1).reverse
  if d.isEmpty && path.head? = some '/' then ['/'] else d

/-- Construction `QDir(path)`: a directory object is the path it stands for,
without a trailing separator. -/
def QDir (path : QString) : QString :=
  if 1 < path.length ∧ path.getLast? = some '/' then path.dropLast else path

/-- The call `QDir::filePath(name)`. -/
def filePath (dir name : QString) : QString :=
  if name.head? = some '/' then name
  else if name.isEmpty then dir
  else if dir.isEmpty ∨ dir.getLast? = some '/' then dir ++ name
  else dir ++ '/' :: name

/-- The call `QFileInfo::absoluteDir()` of the entry at `info`: the directory
that CONTAINS the entry, also when the entry is itself a directory. -/
def absoluteDir (info : QString) : QString := QDir (parentPath info)

/-- The entries of kind `k` directly inside `dir`, hidden ones included, as
absolute paths. -/
def entries (fs : FileSystem) (dir : QString) (k : Kind) : List QString :=
  (fs.filter (fun e => decide (e.2 = k) && decide (parentPath e.1 = dir)
    && decide (e.1 ≠ dir))).map Prod.fst

/-- Whether an entry is hidden: its name starts with a dot.  A listing without
the filter `QDir::Hidden` leaves such entries out. -/
def isHidden (path : QString) : Bool := (fileName path).head? = some '.'

/-- The call `QDir::entryInfoList(QDir::NoDotAndDotDot | QDir::Dirs)`: one
`QFileInfo`, given by its absolute path, for every subdirectory that is not
hidden. -/
def entryInfoList (fs : FileSystem) (dir : QString) : List QString :=
  (entries fs dir Kind.dir).filter (fun q => !isHidden q)

/-- The call `QDir::entryList(QDir::NoDotAndDotDot | QDir::Files)`: the names of
the regular files of the directory that are not hidden. -/
def entryList (fs : FileSystem) (dir : QString) : List QString :=
  ((entries fs dir Kind.file).filter (fun q => !isHidden q)).map fileName

/-- Whether a path exists. -/
def pathExists (fs : FileSystem) (path : QString) : Bool :=
  fs.contains (path, Kind.file) || fs.contains (path, Kind.dir)

/-- The call `QDir::remove(name)`, `path` being the file path of `name`: a
regular file is deleted, anything else fails. -/
def remove (fs : FileSystem) (path : QString) : Bool × FileSystem :=
  if fs.contains (path, Kind.file) then (true, fs.filter (fun e => e ≠ (path, Kind.file)))
  else (false, fs)

/-- The call `QDir::rmdir(name)`, `path` being the file path of `name`: only an
EMPTY directory is deleted. -/
def rmdir (fs : FileSystem) (path : QString) : Bool × FileSystem :=
  if fs.contains (path, Kind.dir) ∧ entries fs path Kind.dir = [] ∧ entries fs path Kind.file = []
  then (true, fs.filter (fun e => e ≠ (path, Kind.dir)))
  else (false, fs)

/-- The call `QDir::mkdir(name)`, `path` being the file path of `name`: fails
when the path exists already or its parent is not a directory. -/
def mkdir (fs : FileSystem) (path : QString) : Bool × FileSystem :=
  if !pathExists fs path ∧ fs.contains (parentPath path, Kind.dir)
  then (true, fs ++ [(path, Kind.dir)])
  else (false, fs)

/-- The directories on the way from the root to `path`, `path` included,
outermost first. -/
def ancestors (path : QString) : List QString :=
  ((List.range path.length).filterMap (fun i =>
    if 0 < i ∧ path.get? i = some '/' then some (path.take i) else none)) ++ [path]

/-- The call `QDir::mkpath(path)`: creates every missing directory on the way;
fails at a component that exists and is no directory. -/
def mkpath (fs : FileSystem) (path : QString) : Bool × FileSystem :=
  (ancestors path).foldl (fun (acc : Bool × FileSystem) a =>
    if !acc.1 then acc
    else if acc.2.contains (a, Kind.dir) then acc
    else if acc.2.contains (a, Kind.file) then (false, acc.2)
    else (true, acc.2 ++ [(a, Kind.dir)])) (true, fs)

/-- The call `QDir::cdUp()`: moves to the parent directory when that exists. -/
def cdUp (fs : FileSystem) (dir : QString) : QString :=
  if fs.contains (parentPath dir, Kind.dir) then parentPath dir else dir

/-! ## The shared client object and the window state -/


/-- Modelled from the spec: the status codes of the engine (`enum` of
`ninjam/njclient.h`, not among the sources).  The session-failure codes are
the negative ones, `NJC_STATUS_OK` is zero. -/
def NJC_STATUS_DISCONNECTED : Int := -3

/-- Modelled from the spec: status code of a failed authentication
(`ninjam/njclient.h`, not among the sources). -/
def NJC_STATUS_INVALIDAUTH : Int := -2

/-- Modelled from the spec: status code of a failed connection attempt
(`ninjam/njclient.h`, not among the sources). -/
def NJC_STATUS_CANTCONNECT : Int := -1

/-- Modelled from the spec: status code of an established session
(`ninjam/njclient.h`, not among the sources). -/
def NJC_STATUS_OK : Int := 0

/-- Modelled from the spec: status code before a session is established
(`ninjam/njclient.h`, not among the sources). -/
def NJC_STATUS_PRECONNECT : Int := 1

/-- Modelled from the spec: the shared client state (class `NJClient` of
`ninjam/njclient.h`, not among the sources), with the fields that
`MainWindow.cpp` reads or writes: session status, error string, connection
target, working-directory path and the local-audio-save flag. -/
structure NJClient where
  status : Int
  errstr : QString
  host : QString
  user : QString
  workDir : QString
  config_savelocalaudio : Int
  deriving DecidableEq, Repr

/-- Modelled from the spec: `NJClient::SetWorkDir` records the path of the
working directory; `NULL` resets the field to empty. -/
def NJClient.SetWorkDir (c : NJClient) (path : Option QString) : NJClient :=
  { c with workDir := path.getD [] }

/-- Modelled from the spec: `NJClient::Disconnect` ends the session: the
connection target and the error string are dropped and the status is back to
pre-connect.  The configuration flags and the working-directory field stay
(the field is reset by the caller, through `SetWorkDir`). -/
def NJClient.Disconnect (c : NJClient) : NJClient :=
  { c with status := NJC_STATUS_PRECONNECT, errstr := [], host := [], user := [] }

/-- Modelled from the spec: `NJClient::Connect` records the connection target;
the session itself is driven by the worker thread afterwards. -/
def NJClient.Connect (c : NJClient) (host user : QString) : NJClient :=
  { c with status := NJC_STATUS_PRECONNECT, errstr := [], host := host, user := user }

/-- An access of the control thread to the shared `client` object. -/
inductive ClientOp where
  | GetErrorStr
  | GetHostName
  | GetUserName
  | GetStatus
  | GetWorkDir
  | config_savelocalaudio
  | SetWorkDir (path : Option QString)
  | Connect (host user pass : QString)
  | Disconnect
  | ChatMessage_Send (parms : List QString)
  deriving DecidableEq, Repr

/-- The ghost trace: what an operation did, in program order. -/
inductive Event where
  | lock
  | unlock
  | client (op : ClientOp)
  | cleanupWorkDir (path : QString)
  | Disconnected
  deriving DecidableEq, Repr

/-- One entry of the chat widget, by what the program hands to the widget:
`appended` is the argument of `chatOutput->append`, which starts a new
paragraph and takes its text as `Qt::AutoText`; `inserted` is the argument of
the `insertPlainText` that follows, put behind it as plain text (the cursor of
the widget being at the end of the document, where the program leaves it).
The character format, bold around the `append` of `chatAddLine`, is not
recorded. -/
structure ChatLine where
  appended : QString
  inserted : QString
  deriving DecidableEq, Repr

/-- What the widget shows for an entry.  `rich` is the test
`Qt::mightBeRichText` that `QTextEdit::append` applies to its argument: when
it fails the appended text is shown as it is, followed by the inserted text;
when it holds the appended text is imported as HTML, so its markup is not
shown as text and what is shown is up to Qt's HTML import, which is not part
of this development: `none`. -/
def ChatLine.shown (rich : QString → Bool) (l : ChatLine) : Option QString :=
  if rich l.appended then none else some (l.appended ++ l.inserted)

/-- White space among the ASCII characters (`QChar::isSpace` there). -/
def isSpaceAscii (c : Char) : Bool := c.toNat = 32 || (9 ≤ c.toNat && c.toNat ≤ 13)

/-- Letters and digits among the ASCII characters (`QChar::isLetter`,
`QChar::isDigit` there). -/
def isLetterOrDigitAscii (c : Char) : Bool :=
  (48 ≤ c.toNat && c.toNat ≤ 57) || (65 ≤ c.toNat && c.toNat ≤ 90) ||
  (97 ≤ c.toNat && c.toNat ≤ 122)

/-- The element names that the HTML import of Qt 4 knows
(`QTextHtmlParser::lookupElement`). -/
def htmlElements : List QString :=
  ["a", "address", "b", "big", "blockquote", "body", "br", "caption", "center", "cite", "code",
   "dd", "dfn", "div", "dl", "dt", "em", "font", "h1", "h2", "h3", "h4", "h5", "h6", "head",
   "hr", "html", "i", "img", "kbd", "li", "link", "meta", "nobr", "ol", "p", "pre", "qt", "s",
   "samp", "script", "small", "span", "strong", "style", "sub", "sup", "table", "tbody", "td",
   "tfoot", "th", "thead", "title", "tr", "tt", "u", "ul", "var"].map String.toList

/-- Skipping of a leading `<?xml ... ?>` in `Qt::mightBeRichText`: the text
behind the first `?>` that has something behind it, or nothing. -/
def skipXmlDeclaration : QString → QString
  | [] => []
  | c :: rest =>
    if c = '?' ∧ rest.head? = some '>' ∧ 1 < rest.length then rest.drop 1
    else skipXmlDeclaration rest

/-- The loop of `Qt::mightBeRichText` over the characters between `<` and `>`:
letters and digits make up the tag name; white space or a closing `/` behind
the name ends it; any other character means that this is no tag: `none`. -/
def tagLoop (tag : QString) : QString → Option QString
  | [] => some tag
  | c :: rest =>
    if isLetterOrDigitAscii c then tagLoop (tag ++ [c]) rest
    else if !tag.isEmpty && isSpaceAscii c then some tag
    else if !tag.isEmpty && c = '/' && rest.isEmpty then some tag
    else if !isSpaceAscii c && (!tag.isEmpty || c ≠ '!') then none
    else tagLoop tag rest

/-- The end of `Qt::mightBeRichText`, `afterOpen` being the text behind the
first `<`: there must be a `>`, and the tag name in between must be a known
element. -/
def tagCheck (afterOpen : QString) : Bool :=
  if afterOpen.contains '>' then
    match tagLoop [] (afterOpen.takeWhile (fun c => c ≠ '>')) with
    | none => false
    | some tag => htmlElements.contains (tag.map asciiFold)
  else false

/-- The search of `Qt::mightBeRichText` for the first `<` of the first line;
an `&lt;` met on the way counts as rich text. -/
def richScan : QString → Bool
  | [] => false
  | c :: rest =>
    if c = '<' then tagCheck rest
    else if c = '\n' then false
    else if c = '&' ∧ rest.take 3 = "lt;".toList then true
    else richScan rest

/-- The function `Qt::mightBeRichText` of Qt 4, with the ASCII character
classes in place of Qt's Unicode tables; one value of the parameter `rich`,
used to evaluate the model on concrete input. -/
def mightBeRichText (text : QString) : Bool :=
  if text.isEmpty then false
  else
    let t := text.dropWhile isSpaceAscii
    let t := if t.take 5 = "<?xml".toList then (skipXmlDeclaration t).dropWhile isSpaceAscii
      else t
    if (t.take 5).map asciiFold = "<!doc".toList then true else richScan t

/-- An open audio device (the result of `create_audioStreamer_PortAudio`). -/
structure AudioStreamer where
  hostAPI : QString
  inputDevice : QString
  outputDevice : QString
  deriving DecidableEq, Repr

/-- The state that the operations of `MainWindow` act on: the members of the
class (`client`, `audio`, the enabled flags of the three menu actions, the
widgets' texts), the file system and the ghost trace. -/
structure MainWindow where
  client : NJClient
  audio : Option AudioStreamer
  connectAction : Bool
  disconnectAction : Bool
  audioConfigAction : Bool
  windowTitle : QString
  chatOutput : List ChatLine
  chatInput : QString
  bpmLabel : QString
  bpiLabel : QString
  fs : FileSystem
  trace : List Event
  deriving DecidableEq, Repr

/-- What the surroundings of the process answer during `Connect`: the
application data location, the formatted clock reading `yyyyMMdd_hhmm` at the
i-th pass of the naming loop, the stored audio settings and whether the audio
device opens. -/
structure Env where
  dataLocation : QString
  currentDateTime : Nat → QString
  hostAPI : QString
  inputDevice : QString
  outputDevice : QString
  audioOpens : QString → QString → QString → Bool

/-- How a call that may terminate the process ends. -/
inductive Outcome where
  | running (s : MainWindow)
  | exited (status : Int) (s : MainWindow)
  deriving DecidableEq, Repr

/-- Appends a trace event. -/
def MainWindow.log (s : MainWindow) (e : Event) : MainWindow :=
  { s with trace := s.trace ++ [e] }

/-- The coercion of a string literal of the source to a `QString`. -/
instance : Coe String QString := ⟨String.toList⟩

/-! ## Operations of `MainWindow` -/

/-- Embedding of `MainWindow::BeatsPerMinuteChanged` (lines 463-470). -/
def BeatsPerMinuteChanged (s : MainWindow) (bpm : Int) : MainWindow :=
  if 0 < bpm then { s with bpmLabel := arg "BPM: %1" (number bpm) }
  else { s with bpmLabel := "BPM: N/A" }

/-- Embedding of `MainWindow::BeatsPerIntervalChanged` (lines 472-479). -/
def BeatsPerIntervalChanged (s : MainWindow) (bpi : Int) : MainWindow :=
  if 0 < bpi then { s with bpiLabel := arg "BPI: %1" (number bpi) }
  else { s with bpiLabel := "BPI: N/A" }

/-- Embedding of `MainWindow::chatAddLine` (lines 482-492): a new entry, the
prefix handed to `append` (in bold) and the content handed to
`insertPlainText`.  The prefix is subject to the rich-text detection of
`append`, see `ChatLine.shown`. -/
def chatAddLine (s : MainWindow) (pre content : QString) : MainWindow :=
  { s with chatOutput := s.chatOutput ++ [ChatLine.mk pre content] }

/-- Embedding of `MainWindow::chatAddMessage` (lines 495-504). -/
def chatAddMessage (s : MainWindow) (src msg : QString) : MainWindow :=
  if isEmpty src then chatAddLine s "*** " msg
  else if startsWith msg "/me " then chatAddLine s (arg "* %1 " src) (mid msg 4)
  else chatAddLine s (arg "<%1> " src) msg

/-- The `chatOutput->append(text)` of the fallback branch of
`ChatMessageCallback`: an entry with nothing inserted behind the appended
text. -/
def chatAppend (s : MainWindow) (text : QString) : MainWindow :=
  { s with chatOutput := s.chatOutput ++ [ChatLine.mk text []] }

/-- Embedding of `MainWindow::ChatMessageCallback` (lines 506-547).  `charparms` is the array
of `nparms` C strings, `none` for a `NULL` entry (which leaves the `QString`
empty).  Reading `parms[i]` beyond the array is an error: `none`. -/
def ChatMessageCallback (s : MainWindow) (charparms : List (Option QString)) :
    Option MainWindow := do
  let parms : List QString := charparms.map (fun p => p.getD [])
  let p0 ← parms.get? 0
  if p0 = "TOPIC" then
    let p1 ← parms.get? 1
    let p2 ← parms.get? 2
    if isEmpty p1 then
      if isEmpty p2 then
        pure (chatAddLine s "No topic is set." "")
      else
        pure (chatAddLine s "Topic is: " p2)
    else
      if isEmpty p2 then
        pure (chatAddLine s (arg "%1 removes topic." p1) "")
      else
        pure (chatAddLine s (arg "%1 sets topic to: " p1) p2)
  else if p0 = "MSG" then
    let p1 ← parms.get? 1
    let p2 ← parms.get? 2
    pure (chatAddMessage s p1 p2)
  else if p0 = "PRIVMSG" then
    let p1 ← parms.get? 1
    let p2 ← parms.get? 2
    pure (chatAddLine s (arg "* %1 * " p1) p2)
  else if p0 = "JOIN" then
    let p1 ← parms.get? 1
    pure (chatAddLine s (arg "%1 has joined the server" p1) "")
  else if p0 = "PART" then
    let p1 ← parms.get? 1
    pure (chatAddLine s (arg "%1 has left the server" p1) "")
  else
    pure ((List.range parms.length).foldl (fun (s : MainWindow) (i : Nat) =>
      chatAppend s (arg (arg "[%1] %2" (number (Int.ofNat i))) (parms.getD i [])))
      (chatAppend s "Unrecognized command:"))

/-- The end of `MainWindow::ChatInputReturnPressed` (lines 584-597), from
`clientMutex.lock()` on: the command is sent when the client is connected,
otherwise the not-connected notice is shown.  `msg` is passed along only for
`PRIVMSG`. -/
def sendChat (s : MainWindow) (command parm msg : QString) : MainWindow :=
  let s := s.log Event.lock
  let s := s.log (Event.client ClientOp.GetStatus)
  let connected : Bool := decide (s.client.status = NJC_STATUS_OK)
  let s :=
    if connected then
      if command = "PRIVMSG" then
        s.log (Event.client (ClientOp.ChatMessage_Send [command, parm, msg]))
      else
        s.log (Event.client (ClientOp.ChatMessage_Send [command, parm]))
    else s
  let s := s.log Event.unlock
  if !connected then chatAddLine s "error: not connected to a server." "" else s

/-- Embedding of `MainWindow::ChatInputReturnPressed` (lines 549-598); the line is the text
of the input field, `fold` the case folding of the case-insensitive
comparisons. -/
def ChatInputReturnPressed (fold : Char → Char) (s : MainWindow) : MainWindow :=
  let line := s.chatInput
  let s := { s with chatInput := [] }
  if equalsCI fold line "/clear" then
    { s with chatOutput := [] }
  else if startsWithCI fold line "/me " then
    sendChat s "MSG" line []
  else if startsWithCI fold line "/topic " || startsWithCI fold line "/kick " ||
      startsWithCI fold line "/bpm " || startsWithCI fold line "/bpi " then
    sendChat s "ADMIN" (mid line 1) []
  else if startsWithCI fold line "/admin " then
    sendChat s "ADMIN" (qsection line ' ' 1 (-1) true) []
  else if startsWithCI fold line "/msg " then
    let parm := qsection line ' ' 1 1 true
    let msg := qsection line ' ' 2 (-1) true
    if isEmpty msg then
      chatAddLine s "error: /msg requires a username and a message." ""
    else
      sendChat (chatAddLine s (arg "-> *%1* " parm) msg) "PRIVMSG" parm msg
  else
    sendChat s "MSG" line []

/-- Embedding of `MainWindow::cleanupWorkDir` (lines 314-332), as the change of the file
system.  The list of subdirectories is taken once; for each of them `subdir`
is `subdirInfo.absoluteDir()`, the files listed in `subdir` are removed and
then `workDir.rmdir` is tried on the subdirectory; last the work directory
itself is tried from its parent. -/
def cleanupWorkDir (fs : FileSystem) (path : QString) : FileSystem :=
  let workDir := QDir path
  let fs1 := (entryInfoList fs workDir).foldl (fun (fs : FileSystem) (subdirInfo : QString) =>
    let subdir := absoluteDir subdirInfo
    let fs2 := (entryList fs subdir).foldl (fun (fs : FileSystem) (file : QString) =>
      (remove fs (filePath subdir file)).2) fs
    (rmdir fs2 (filePath workDir (fileName subdirInfo))).2) fs
  let name := fileName workDir
  let workDir1 := cdUp fs1 workDir
  (rmdir fs1 (filePath workDir1 name)).2

/-- Embedding of `MainWindow::Disconnect` (lines 261-286). -/
def Disconnect (s : MainWindow) : MainWindow :=
  let s := { s with audio := none }
  let s := s.log Event.lock
  let s := ({ s with client := s.client.Disconnect }).log (Event.client ClientOp.Disconnect)
  let workDirPath := s.client.workDir
  let s := s.log (Event.client ClientOp.GetWorkDir)
  let keepWorkDir : Bool := decide (s.client.config_savelocalaudio ≠ 0)
  let s := s.log (Event.client ClientOp.config_savelocalaudio)
  let s := ({ s with client := s.client.SetWorkDir none }).log
    (Event.client (ClientOp.SetWorkDir none))
  let s := s.log Event.unlock
  let s :=
    if !isEmpty workDirPath && !keepWorkDir then
      chatAddLine (({ s with fs := cleanupWorkDir s.fs workDirPath }).log
        (Event.cleanupWorkDir workDirPath)) "Disconnected" ""
    else s
  let s := { s with windowTitle := "Wahjam" }
  let s := { s with audioConfigAction := true, connectAction := true, disconnectAction := false }
  let s := BeatsPerMinuteChanged s 0
  let s := BeatsPerIntervalChanged s 0
  s.log Event.Disconnected

/-- The file name that pass `i` of the loop in `MainWindow::setupWorkDir`
builds: date and time, `_i` when `i` is positive, and the suffix `.wahjam`. -/
def workDirName (env : Env) (i : Nat) : QString :=
  let filename := env.currentDateTime i
  let filename := if 0 < i then filename ++ arg "_%1" (number (Int.ofNat i)) else filename
  filename ++ ".wahjam".toList

/-- The naming loop of `MainWindow::setupWorkDir` over the remaining values
of `i`: the first name that `mkdir` accepts becomes the work directory. -/
def setupWorkDirLoop (env : Env) (basedir : QString) : List Nat → MainWindow → Bool × MainWindow
  | [], s => (false, s)
  | i :: is, s =>
    let filename := workDirName env i
    let r := mkdir s.fs (filePath basedir filename)
    if r.1 then
      (true, ({ s with fs := r.2,
                       client := s.client.SetWorkDir (some (filePath basedir filename)) }).log
        (Event.client (ClientOp.SetWorkDir (some (filePath basedir filename)))))
    else setupWorkDirLoop env basedir is s

/-- Embedding of `MainWindow::setupWorkDir` (lines 288-312). -/
def setupWorkDir (env : Env) (s : MainWindow) : Bool × MainWindow :=
  let basedir := QDir env.dataLocation
  let r := mkpath s.fs basedir
  if !r.1 then (false, { s with fs := r.2 })
  else setupWorkDirLoop env basedir (List.range 16) { s with fs := r.2 }

/-- The call `QString::toAscii()`: characters outside Latin-1 become `?`. -/
def toAscii (s : QString) : QString := s.map (fun c => if c.toNat < 256 then c else '?')

/-- Embedding of `MainWindow::Connect` (lines 229-259): a failed work
directory is reported in the chat, a failed audio device ends the process
with `exit(1)`. -/
def Connect (env : Env) (s : MainWindow) (host user pass : QString) : Outcome :=
  let r := setupWorkDir env s
  if !r.1 then
    Outcome.running (chatAddLine r.2 "Unable to create work directory." "")
  else
    let s := r.2
    if env.audioOpens env.hostAPI env.inputDevice env.outputDevice then
      let s := { s with audio := some (AudioStreamer.mk env.hostAPI env.inputDevice env.outputDevice) }
      let s := { s with audioConfigAction := false, connectAction := false, disconnectAction := true }
      let s := { s with windowTitle := arg "Wahjam - %1" host }
      Outcome.running (({ s with client := s.client.Connect (toAscii host) user }).log
        (Event.client (ClientOp.Connect (toAscii host) user pass)))
    else
      Outcome.exited 1 { s with audio := none }

/-- Embedding of `MainWindow::ClientStatusChanged` (lines 434-461). -/
def ClientStatusChanged (s : MainWindow) (newStatus : Int) : MainWindow :=
  let errstr := s.client.errstr
  let s := s.log (Event.client ClientOp.GetErrorStr)
  let r : MainWindow × QString :=
    if newStatus = NJC_STATUS_OK then
      let s := s.log Event.lock
      let host := s.client.host
      let s := s.log (Event.client ClientOp.GetHostName)
      let username := s.client.user
      let s := s.log (Event.client ClientOp.GetUserName)
      let s := s.log Event.unlock
      (s, arg2 "Connected to %1 as %2" host username)
    else if !isEmpty errstr then (s, "Error: ".toList ++ errstr)
    else if newStatus = NJC_STATUS_DISCONNECTED then (s, "Error: unexpected disconnect")
    else if newStatus = NJC_STATUS_INVALIDAUTH then (s, "Error: authentication failed")
    else if newStatus = NJC_STATUS_CANTCONNECT then (s, "Error: connecting failed")
    else (s, [])
  let s := chatAddLine r.1 r.2 ""
  if newStatus < 0 then Disconnect s else s

/-- Whether every access to the shared client object in a trace happens
between a `lock` and the following `unlock`; `held` tells whether the mutex
is held at the start. -/
def accessesGuarded : Bool → List Event → Bool
  | _, [] => true
  | _, Event.lock :: es => accessesGuarded true es
  | _, Event.unlock :: es => accessesGuarded false es
  | held, Event.client _ :: es => held && accessesGuarded held es
  | held, Event.cleanupWorkDir _ :: es => accessesGuarded held es
  | held, Event.Disconnected :: es => accessesGuarded held es

/-! ## The singleton reference -/


/-- The process as far as the singleton is concerned: the static member
`MainWindow::instance` (`none` is `NULL`), the addresses of the `MainWindow`
objects that exist, and whether `abort()` was called. -/
structure Process where
  instancePtr : Option Nat
  live : List Nat
  aborted : Bool
  deriving DecidableEq, Repr

/-- The process at start: the static pointer is zero-initialised. -/
def Process.start : Process := Process.mk none [] false

/-- Embedding of `MainWindow::GetInstance` (lines 58-61). -/
def GetInstance (p : Process) : Option Nat := p.instancePtr

/-- The singleton part of the constructor `MainWindow::MainWindow` (lines
69-73) for the object at address `this`: abort when the reference is set, else set it. -/
def construct (p : Process) (this : Nat) : Process :=
  if p.aborted then p
  else if p.instancePtr.isSome then { p with aborted := true }
  else { p with instancePtr := some this, live := this :: p.live }

/-- The singleton part of the destructor `MainWindow::~MainWindow` (lines
193-203) for the object at address `this`: the object goes away; the destructor has no
assignment to `MainWindow::instance`. -/
def destruct (p : Process) (this : Nat) : Process :=
  if p.aborted then p
  else { p with live := p.live.filter (fun a => a ≠ this) }

/-- A construction or a destruction of a `MainWindow`. -/
inductive LifeOp where
  | construct (this : Nat)
  | destruct (this : Nat)
  deriving DecidableEq, Repr

/-- Runs a sequence of constructions and destructions. -/
def runLife (p : Process) : List LifeOp → Process
  | [] => p
  | LifeOp.construct a :: ops => runLife (construct p a) ops
  | LifeOp.destruct a :: ops => runLife (destruct p a) ops

/-! ## States and surroundings used to evaluate the model, and vocabulary of the properties -/

/-- The non-empty fields of a line between blanks. -/
def fields (line : QString) : List QString :=
  (split ' ' line).filter (fun f => !f.isEmpty)

/-- The letters by which the chat commands differ from `/msg ` keep apart
under the case folding: `m` from `c`, `t`, `k`, `b` and `a` (second
character of `/clear`, `/topic `, `/kick `, `/bpm `, `/bpi `, `/admin `) and `s`
from `e` (third character of `/me `). -/
def foldSeparates (fold : Char → Char) : Prop :=
  fold 'm' ≠ fold 'c' ∧ fold 'm' ≠ fold 't' ∧ fold 'm' ≠ fold 'k' ∧ fold 'm' ≠ fold 'b' ∧
  fold 'm' ≠ fold 'a' ∧ fold 's' ≠ fold 'e'

/-- The not-connected notice as a chat entry. -/
def notConnectedNotice : ChatLine := ChatLine.mk "error: not connected to a server.".toList []

/-- The state at the end of the constructor `MainWindow::MainWindow`, on the
file system `fs`: no session, `config_savelocalaudio = 0`, no audio device,
the disconnect action disabled, empty chat widgets, both labels `N/A`. -/
def MainWindow.constructed (fs : FileSystem) : MainWindow :=
  { client := NJClient.mk NJC_STATUS_PRECONNECT [] [] [] [] 0
    audio := none
    connectAction := true
    disconnectAction := false
    audioConfigAction := true
    windowTitle := "Wahjam".toList
    chatOutput := []
    chatInput := []
    bpmLabel := "BPM: N/A".toList
    bpiLabel := "BPI: N/A".toList
    fs := fs
    trace := [] }

/-- A file system with the application data directory `/data` only. -/
def dataFS : FileSystem := [("/".toList, Kind.dir), ("/data".toList, Kind.dir)]

/-- Whether `Disconnect` cleans the work directory up: the work-dir field is
not empty and `config_savelocalaudio` is zero. -/
def cleanupDue (w : MainWindow) : Bool :=
  !isEmpty w.client.workDir && !decide (w.client.config_savelocalaudio ≠ 0)

/-- The status line that `ClientStatusChanged` shows for a status other than
`NJC_STATUS_OK`. -/
def failureMessage (w : MainWindow) (newStatus : Int) : QString :=
  if !isEmpty w.client.errstr then "Error: ".toList ++ w.client.errstr
  else if newStatus = NJC_STATUS_DISCONNECTED then "Error: unexpected disconnect".toList
  else if newStatus = NJC_STATUS_INVALIDAUTH then "Error: authentication failed".toList
  else if newStatus = NJC_STATUS_CANTCONNECT then "Error: connecting failed".toList
  else []

/-- The work directory of a session. -/
def sessionDir : QString := "/data/20121012_1030.wahjam".toList

/-- A file system after a session that recorded one file: the work directory
has one subdirectory `0`, which holds the regular file `a.ogg`. -/
def sessionFS : FileSystem :=
  [("/".toList, Kind.dir), ("/data".toList, Kind.dir),
   ("/data/20121012_1030.wahjam".toList, Kind.dir),
   ("/data/20121012_1030.wahjam/0".toList, Kind.dir),
   ("/data/20121012_1030.wahjam/0/a.ogg".toList, Kind.file)]

/-- A window in a session with work directory `sessionDir`, local audio not
kept. -/
def sessionWindow : MainWindow :=
  { MainWindow.constructed sessionFS with
    client := NJClient.mk NJC_STATUS_OK [] "host".toList "user".toList sessionDir 0
    audio := some (AudioStreamer.mk [] [] [])
    connectAction := false
    disconnectAction := true
    audioConfigAction := false }

/-- Answers of the surroundings in which `Connect` succeeds: the data
directory is `/data`, the clock reads 2012-10-12 10:30, the audio device
opens. -/
def goodEnv : Env :=
  { dataLocation := "/data".toList
    currentDateTime := fun _ => "20121012_1030".toList
    hostAPI := []
    inputDevice := []
    outputDevice := []
    audioOpens := fun _ _ _ => true }

/-- Answers of the surroundings in which the work directory can be created
but the audio device does not open. -/
def noAudioEnv : Env := { goodEnv with audioOpens := fun _ _ _ => false }

/-- A file system in which the application data location `/data` is taken by
a regular file, so that no work directory can be created. -/
def blockedFS : FileSystem := [("/".toList, Kind.dir), ("/data".toList, Kind.file)]

/-- What `cleanupWorkDir` cannot remove: a regular file `f` inside a
subdirectory `sub` of the work directory `dir`, that subdirectory, and the
work directory. -/
def Kept (dir sub f : QString) (fs : FileSystem) : Prop :=
  (f, Kind.file) ∈ fs ∧ (sub, Kind.dir) ∈ fs ∧ (dir, Kind.dir) ∈ fs

/-! ## The recent-hosts list -/

/-- The loop of `QStringList::removeDuplicates`: `seen` holds the strings met
so far; a string that is in `seen` is dropped, any other is kept and joins
`seen`. -/
def removeDuplicatesLoop (seen : List QString) : List QString → List QString
  | [] => []
  | s :: rest =>
    if seen.contains s then removeDuplicatesLoop seen rest
    else s :: removeDuplicatesLoop (s :: seen) rest

/-- The call `QStringList::removeDuplicates()`: of equal strings the first
stays. -/
def removeDuplicates (l : List QString) : List QString := removeDuplicatesLoop [] l

/-- The call `QStringList::mid(pos, length)`: `length` elements from position
`pos` on, or all that are left when there are fewer. -/
def listMid (l : List QString) (pos length : Nat) : List QString := (l.drop pos).take length

/-- The persistent settings that `ShowConnectDialog` reads and writes:
`connect/hosts`, `connect/user` and `connect/public`. -/
structure Settings where
  hosts : List QString
  user : QString
  isPublicServer : Bool
  deriving DecidableEq, Repr

/-- What the user did with the connect dialog: whether it was accepted, and
the values of its fields. -/
structure ConnectDialog where
  accepted : Bool
  host : QString
  user : QString
  pass : QString
  isPublicServer : Bool
  deriving DecidableEq, Repr

/-- Embedding of `MainWindow::ShowConnectDialog` (lines 334-365): a dialog
that is not accepted changes nothing; otherwise the host is put in front of
the stored list, duplicates are removed, the first 16 entries are stored
together with user name and public flag, and `Connect` is called (with the
user name behind `anonymous:` for a public server). -/
def ShowConnectDialog (env : Env) (settings : Settings) (connectDialog : ConnectDialog)
    (s : MainWindow) : Settings × Outcome :=
  let hosts := settings.hosts
  if !connectDialog.accepted then (settings, Outcome.running s)
  else
    let hosts := connectDialog.host :: hosts
    let hosts := removeDuplicates hosts
    let hosts := listMid hosts 0 16
    let settings := { settings with hosts := hosts, user := connectDialog.user,
                                    isPublicServer := connectDialog.isPublicServer }
    let user := connectDialog.user
    let user := if connectDialog.isPublicServer then "anonymous:".toList ++ user else user
    (settings, Connect env s connectDialog.host user connectDialog.pass)

/-- The distinct elements of a list in their original order: each element
at the place of its first occurrence. -/
def distinctElements : List QString → List QString
  | [] => []
  | a :: l => a :: (distinctElements l).filter (fun b => b ≠ a)

/-- The distinct elements of `l` other than `h`, in their original order. -/
def distinctOthers (l : List QString) (h : QString) : List QString :=
  (distinctElements l).filter (fun b => b ≠ h)

/-- A stored recent-hosts list of sixteen different hosts. -/
def sixteenHosts : List QString :=
  ["a".toList, "b".toList, "c".toList, "d".toList, "e".toList, "f".toList, "g".toList,
   "h".toList, "i".toList, "j".toList, "k".toList, "l".toList, "m".toList, "n".toList,
   "o".toList, "p".toList]

/-- A connect dialog accepted with the host `host`. -/
def acceptedDialog (host : QString) : ConnectDialog :=
  ConnectDialog.mk true host "user".toList "pass".toList true

/-! # Properties -/

/-! ## The embedded library calls on sample input -/

/-- Place markers: `arg` fills the lowest one, `arg2` the two lowest. -/
theorem arg_samples :
    arg "<%1> ".toList "alice".toList = "<alice> ".toList ∧
    arg (arg "[%1] %2".toList (number 3)) "x".toList = "[3] x".toList ∧
    arg2 "Connected to %1 as %2".toList "h".toList "u".toList = "Connected to h as u".toList := by
  decide

/-- Sections of a `/msg` line: recipient and message, empty fields skipped. -/
theorem qsection_samples :
    qsection "/msg bob  hello there".toList ' ' 1 1 true = "bob".toList ∧
    qsection "/msg bob  hello there".toList ' ' 2 (-1) true = "hello there".toList ∧
    qsection "/msg bob ".toList ' ' 2 (-1) true = [] ∧
    qsection "/admin  kick  x".toList ' ' 1 (-1) true = "kick  x".toList := by
  decide

/-- Paths: parent, last component, and the directories `mkpath` creates. -/
theorem path_samples :
    parentPath "/data/w/0".toList = "/data/w".toList ∧
    parentPath "/data".toList = "/".toList ∧
    fileName "/data/w/0".toList = "0".toList ∧
    absoluteDir "/data/w/0".toList = "/data/w".toList ∧
    mkpath [("/".toList, Kind.dir)] "/data/w".toList
      = (true, [("/".toList, Kind.dir), ("/data".toList, Kind.dir),
          ("/data/w".toList, Kind.dir)]) := by
  decide

/-- Rich-text detection on prefixes of chat entries: an unknown tag and plain
text pass as text; a known HTML element and an `&lt;` count as rich text. -/
theorem mightBeRichText_samples :
    mightBeRichText "<alice> ".toList = false ∧
    mightBeRichText "*** ".toList = false ∧
    mightBeRichText "error: not connected to a server.".toList = false ∧
    mightBeRichText "<b> ".toList = true ∧
    mightBeRichText "* <i>x</i> ".toList = true ∧
    mightBeRichText "a &lt; b removes topic.".toList = true := by
  decide

/-- Listings leave hidden entries out, while `rmdir` does not overlook them. -/
theorem listing_samples :
    entryList [("/w".toList, Kind.dir), ("/w/.x".toList, Kind.file), ("/w/y".toList, Kind.file)]
      "/w".toList = ["y".toList] ∧
    entryInfoList [("/w".toList, Kind.dir), ("/w/.d".toList, Kind.dir), ("/w/0".toList, Kind.dir)]
      "/w".toList = ["/w/0".toList] ∧
    (rmdir [("/w".toList, Kind.dir), ("/w/.x".toList, Kind.file)] "/w".toList).1 = false := by
  decide

/-! ## Rendering of chat events -/

/-- The three shapes of the entry that `chatAddMessage` appends. -/
theorem chatAddMessage_entry (w : MainWindow) (s m : QString) :
    chatAddMessage w s m = { w with chatOutput := w.chatOutput ++
      [if s = [] then ChatLine.mk "*** ".toList m
       else if "/me ".toList <+: m then
         ChatLine.mk ("* ".toList ++ s ++ " ".toList) (m.drop 4)
       else ChatLine.mk ("<".toList ++ s ++ "> ".toList) m] } := by
  have ha : arg "* %1 ".toList s = "* ".toList ++ s ++ " ".toList := rfl
  have hb : arg "<%1> ".toList s = "<".toList ++ s ++ "> ".toList := rfl
  unfold chatAddMessage chatAddLine
  rw [ha, hb]
  by_cases hs : s = []
  · simp [hs, isEmpty]
  · have hs1 : isEmpty s = false := by
      cases s with
      | nil => exact absurd rfl hs
      | cons c t => rfl
    by_cases hm : "/me ".toList <+: m
    · have hm1 : startsWith m "/me ".toList = true := by
        unfold startsWith
        exact List.isPrefixOf_iff_prefix.mpr hm
      rw [hs1, hm1, if_neg hs, if_pos hm]
      simp [mid]
    · have hm1 : startsWith m "/me ".toList = false := by
        unfold startsWith
        cases h : List.isPrefixOf "/me ".toList m with
        | false => rfl
        | true => exact absurd (List.isPrefixOf_iff_prefix.mp h) hm
      rw [hs1, hm1, if_neg hs, if_neg hm]
      simp

/-- Emptiness test of a `QString` against the empty list. -/
theorem isEmpty_eq_decide (s : QString) : isEmpty s = decide (s = []) := by
  cases s <;> rfl

/-- C8 (the code falls short of it): a chat-message event `MSG` with source
`s` and text `m` (three parameters or more, a `NULL` parameter reading as the
empty string) makes `ChatMessageCallback` append exactly one entry and
change nothing else, and the texts handed to the widget read, one behind the
other, `*** m` when `s` is empty, `* s ` followed by `m` without its first
four characters when `s` is not empty and `m` starts with `/me `, and
`<s> m` otherwise.  The widget shows that text when the prefix is not taken
for rich text, as for (`MSG`, `alice`, `hello`), which reads
`<alice> hello`.  But the prefix goes through `append`, which detects rich
text: for (`MSG`, `b`, `hello`) the prefix `<b> ` is a known HTML element and
is imported as markup, so the entry does not read `<b> hello`. -/
theorem ChatMessageCallback_MSG_rendering (rich : QString → Bool) (w : MainWindow)
    (src msg : Option QString) (rest : List (Option QString)) :
    (∃ line : ChatLine,
      ChatMessageCallback w (some "MSG".toList :: src :: msg :: rest)
        = some { w with chatOutput := w.chatOutput ++ [line] } ∧
      line.appended ++ line.inserted =
        (if src.getD [] = [] then "*** ".toList ++ msg.getD []
         else if "/me ".toList <+: msg.getD [] then
           "* ".toList ++ src.getD [] ++ " ".toList ++ (msg.getD []).drop 4
         else "<".toList ++ src.getD [] ++ "> ".toList ++ msg.getD []) ∧
      (rich line.appended = false →
        line.shown rich = some
          (if src.getD [] = [] then "*** ".toList ++ msg.getD []
           else if "/me ".toList <+: msg.getD [] then
             "* ".toList ++ src.getD [] ++ " ".toList ++ (msg.getD []).drop 4
           else "<".toList ++ src.getD [] ++ "> ".toList ++ msg.getD []))) ∧
    (rich "<alice> ".toList = false →
      ChatMessageCallback w [some "MSG".toList, some "alice".toList, some "hello".toList]
        = some { w with chatOutput := w.chatOutput ++
            [ChatLine.mk "<alice> ".toList "hello".toList] } ∧
      (ChatLine.mk "<alice> ".toList "hello".toList).shown rich
        = some "<alice> hello".toList) ∧
    (rich "<b> ".toList = true →
      ChatMessageCallback w [some "MSG".toList, some "b".toList, some "hello".toList]
        = some { w with chatOutput := w.chatOutput ++
            [ChatLine.mk "<b> ".toList "hello".toList] } ∧
      (ChatLine.mk "<b> ".toList "hello".toList).shown rich = none ∧
      (ChatLine.mk "<b> ".toList "hello".toList).shown rich ≠ some "<b> hello".toList) := by
  have hcall : ∀ (a b : Option QString) (r : List (Option QString)),
      ChatMessageCallback w (some "MSG".toList :: a :: b :: r)
        = some (chatAddMessage w (a.getD []) (b.getD [])) := by
    intro a b r
    simp [ChatMessageCallback]
  refine ⟨?_, ?_, ?_⟩
  · have hline : ∃ line : ChatLine,
        ChatMessageCallback w (some "MSG".toList :: src :: msg :: rest)
          = some { w with chatOutput := w.chatOutput ++ [line] } ∧
        line.appended ++ line.inserted =
          (if src.getD [] = [] then "*** ".toList ++ msg.getD []
           else if "/me ".toList <+: msg.getD [] then
             "* ".toList ++ src.getD [] ++ " ".toList ++ (msg.getD []).drop 4
           else "<".toList ++ src.getD [] ++ "> ".toList ++ msg.getD []) := by
      refine ⟨if src.getD [] = [] then ChatLine.mk "*** ".toList (msg.getD [])
         else if "/me ".toList <+: msg.getD [] then
           ChatLine.mk ("* ".toList ++ src.getD [] ++ " ".toList) ((msg.getD []).drop 4)
         else ChatLine.mk ("<".toList ++ src.getD [] ++ "> ".toList) (msg.getD []), ?_, ?_⟩
      · rw [hcall, chatAddMessage_entry]
      · by_cases hs : src.getD [] = []
        · rw [if_pos hs, if_pos hs]
        · by_cases hm : "/me ".toList <+: msg.getD []
          · rw [if_neg hs, if_neg hs, if_pos hm, if_pos hm]
          · rw [if_neg hs, if_neg hs, if_neg hm, if_neg hm]
    obtain ⟨line, h1, h2⟩ := hline
    refine ⟨line, h1, h2, ?_⟩
    intro hr
    unfold ChatLine.shown
    rw [hr, h2]
    rfl
  · intro hr
    refine ⟨?_, ?_⟩
    · rw [hcall, chatAddMessage_entry]
      simp
    · unfold ChatLine.shown
      simp only [hr]
      rfl
  · intro hr
    refine ⟨?_, ?_, ?_⟩
    · rw [hcall, chatAddMessage_entry]
      simp
    · unfold ChatLine.shown
      simp only [hr]
      rfl
    · unfold ChatLine.shown
      simp only [hr]
      exact fun h => Option.noConfusion h

/-- Witness of C8: the detection of Qt on a freshly constructed window; the
prefix `<alice> ` passes as text, the prefix `<b> ` is taken for rich text. -/
theorem ChatMessageCallback_MSG_rendering_witness :
    (ChatLine.mk "<alice> ".toList "hello".toList).shown mightBeRichText
      = some "<alice> hello".toList ∧
    ChatMessageCallback (MainWindow.constructed dataFS)
        [some "MSG".toList, some "b".toList, some "hello".toList]
      = some { MainWindow.constructed dataFS with
          chatOutput := [ChatLine.mk "<b> ".toList "hello".toList] } ∧
    (ChatLine.mk "<b> ".toList "hello".toList).shown mightBeRichText = none :=
  ⟨((ChatMessageCallback_MSG_rendering mightBeRichText (MainWindow.constructed dataFS)
      none none []).2.1 (by decide)).2,
   ((ChatMessageCallback_MSG_rendering mightBeRichText (MainWindow.constructed dataFS)
      none none []).2.2 (by decide)).1,
   ((ChatMessageCallback_MSG_rendering mightBeRichText (MainWindow.constructed dataFS)
      none none []).2.2 (by decide)).2.1⟩

/-- C9 (the code falls short of it): a chat-message event `TOPIC` with user
`u` and topic `t` (three parameters or more, a `NULL` parameter reading as the
empty string) makes `ChatMessageCallback` append exactly one entry and change
nothing else, and the texts handed to the widget read, one behind the other,
`No topic is set.` when both are empty, `Topic is: t` when only `u` is empty,
`u removes topic.` when only `t` is empty and `u sets topic to: t` when
neither is empty.  The widget shows that text when the prefix is not taken
for rich text, as for (`TOPIC`, empty, empty).  But the prefix, which holds
the user name, goes through `append`, which detects rich text: for the user
`<b>bob</b>` and an empty topic the prefix `<b>bob</b> removes topic.` is
imported as HTML, so the entry does not read that text. -/
theorem ChatMessageCallback_TOPIC_rendering (rich : QString → Bool) (w : MainWindow)
    (user topic : Option QString) (rest : List (Option QString)) :
    (∃ line : ChatLine,
      ChatMessageCallback w (some "TOPIC".toList :: user :: topic :: rest)
        = some { w with chatOutput := w.chatOutput ++ [line] } ∧
      line.appended ++ line.inserted =
        (if user.getD [] = [] then
           (if topic.getD [] = [] then "No topic is set.".toList
            else "Topic is: ".toList ++ topic.getD [])
         else
           (if topic.getD [] = [] then user.getD [] ++ " removes topic.".toList
            else user.getD [] ++ " sets topic to: ".toList ++ topic.getD [])) ∧
      (rich line.appended = false →
        line.shown rich = some
          (if user.getD [] = [] then
             (if topic.getD [] = [] then "No topic is set.".toList
              else "Topic is: ".toList ++ topic.getD [])
           else
             (if topic.getD [] = [] then user.getD [] ++ " removes topic.".toList
              else user.getD [] ++ " sets topic to: ".toList ++ topic.getD [])))) ∧
    (rich "No topic is set.".toList = false →
      ChatMessageCallback w [some "TOPIC".toList, some [], some []]
        = some { w with chatOutput := w.chatOutput ++
            [ChatLine.mk "No topic is set.".toList []] } ∧
      (ChatLine.mk "No topic is set.".toList []).shown rich = some "No topic is set.".toList) ∧
    (rich "<b>bob</b> removes topic.".toList = true →
      ChatMessageCallback w [some "TOPIC".toList, some "<b>bob</b>".toList, some []]
        = some { w with chatOutput := w.chatOutput ++
            [ChatLine.mk "<b>bob</b> removes topic.".toList []] } ∧
      (ChatLine.mk "<b>bob</b> removes topic.".toList []).shown rich = none ∧
      (ChatLine.mk "<b>bob</b> removes topic.".toList []).shown rich
        ≠ some "<b>bob</b> removes topic.".toList) := by
  have hcall : ∀ (u t : Option QString) (r : List (Option QString)),
      ChatMessageCallback w (some "TOPIC".toList :: u :: t :: r)
      = some (if isEmpty (u.getD []) then
                (if isEmpty (t.getD []) then chatAddLine w "No topic is set.".toList []
                 else chatAddLine w "Topic is: ".toList (t.getD []))
              else
                (if isEmpty (t.getD []) then
                   chatAddLine w (arg "%1 removes topic.".toList (u.getD [])) []
                 else chatAddLine w (arg "%1 sets topic to: ".toList (u.getD []))
                   (t.getD []))) := by
    intro u t r
    simp only [ChatMessageCallback, List.map, List.get?, Option.bind_eq_bind, Option.some_bind,
      Option.getD_some, if_true, Option.pure_def, bind_pure_comp]
    split_ifs <;> rfl
  refine ⟨?_, ?_, ?_⟩
  · have ha : arg "%1 removes topic.".toList (user.getD [])
        = user.getD [] ++ " removes topic.".toList := rfl
    have hb : arg "%1 sets topic to: ".toList (user.getD [])
        = user.getD [] ++ " sets topic to: ".toList := rfl
    have hline : ∃ line : ChatLine,
        ChatMessageCallback w (some "TOPIC".toList :: user :: topic :: rest)
          = some { w with chatOutput := w.chatOutput ++ [line] } ∧
        line.appended ++ line.inserted =
          (if user.getD [] = [] then
             (if topic.getD [] = [] then "No topic is set.".toList
              else "Topic is: ".toList ++ topic.getD [])
           else
             (if topic.getD [] = [] then user.getD [] ++ " removes topic.".toList
              else user.getD [] ++ " sets topic to: ".toList ++ topic.getD [])) := by
      rw [hcall, ha, hb, isEmpty_eq_decide, isEmpty_eq_decide]
      by_cases hu : user.getD [] = []
      · by_cases ht : topic.getD [] = []
        · exact ⟨ChatLine.mk "No topic is set.".toList [], by simp [hu, ht, chatAddLine],
            by simp [hu, ht]⟩
        · exact ⟨ChatLine.mk "Topic is: ".toList (topic.getD []), by simp [hu, ht, chatAddLine],
            by simp [hu, ht]⟩
      · by_cases ht : topic.getD [] = []
        · exact ⟨ChatLine.mk (user.getD [] ++ " removes topic.".toList) [],
            by simp [hu, ht, chatAddLine], by simp [hu, ht]⟩
        · exact ⟨ChatLine.mk (user.getD [] ++ " sets topic to: ".toList) (topic.getD []),
            by simp [hu, ht, chatAddLine], by simp [hu, ht]⟩
    obtain ⟨line, h1, h2⟩ := hline
    refine ⟨line, h1, h2, ?_⟩
    intro hr
    unfold ChatLine.shown
    rw [hr, h2]
    rfl
  · intro hr
    refine ⟨?_, ?_⟩
    · rw [hcall]
      rfl
    · unfold ChatLine.shown
      simp only [hr]
      rfl
  · intro hr
    refine ⟨?_, ?_, ?_⟩
    · rw [hcall]
      rfl
    · unfold ChatLine.shown
      simp only [hr]
      rfl
    · unfold ChatLine.shown
      simp only [hr]
      exact fun h => Option.noConfusion h

/-- Witness of C9: the detection of Qt on a freshly constructed window; the
prefix `No topic is set.` passes as text, the prefix with the user name
`<b>bob</b>` is taken for rich text. -/
theorem ChatMessageCallback_TOPIC_rendering_witness :
    (ChatLine.mk "No topic is set.".toList []).shown mightBeRichText
      = some "No topic is set.".toList ∧
    ChatMessageCallback (MainWindow.constructed dataFS)
        [some "TOPIC".toList, some "<b>bob</b>".toList, some []]
      = some { MainWindow.constructed dataFS with
          chatOutput := [ChatLine.mk "<b>bob</b> removes topic.".toList []] } ∧
    (ChatLine.mk "<b>bob</b> removes topic.".toList []).shown mightBeRichText = none :=
  ⟨((ChatMessageCallback_TOPIC_rendering mightBeRichText (MainWindow.constructed dataFS)
      none none []).2.1 (by decide)).2,
   ((ChatMessageCallback_TOPIC_rendering mightBeRichText (MainWindow.constructed dataFS)
      none none []).2.2 (by decide)).1,
   ((ChatMessageCallback_TOPIC_rendering mightBeRichText (MainWindow.constructed dataFS)
      none none []).2.2 (by decide)).2.1⟩

/-! ## Chat input -/


/-- When the last wanted field lies before the first wanted one, the loop of
`QString::section` collects nothing. -/
theorem sectionLoop_of_lt (sep : Char) (start stop : Int) (skipEmpty : Bool) (h : stop < start) :
    ∀ (secs : List QString) (x : Int) (ret : QString),
      sectionLoop sep start stop skipEmpty secs x ret = ret := by
  intro secs
  induction secs with
  | nil => intro x ret; rfl
  | cons sec rest ih =>
    intro x ret
    unfold sectionLoop
    by_cases hx : x ≤ stop
    · have hs : ¬ start ≤ x := by omega
      simp only [hx, hs, if_true, if_false]
      exact ih _ _
    · simp only [hx, if_false]

/-- A line with at most two non-empty fields has no message part: the section
from field 2 on is empty. -/
theorem qsection_from_two_of_fields_le (line : QString) (h : (fields line).length ≤ 2) :
    qsection line ' ' 2 (-1) true = [] := by
  unfold qsection
  have hlen := List.length_eq_length_filter_add (l := split ' ' line) (fun f => f.isEmpty)
  unfold fields at h
  apply sectionLoop_of_lt
  simp only [if_true]
  have h1 : ((-1 : Int) < 0) := by decide
  have h2 : ¬ ((2 : Int) < 0) := by decide
  simp only [h1, h2, if_true, if_false]
  omega

/-- At every position of the pattern, a line that starts with the pattern
under case folding has a character that folds like the pattern's. -/
theorem startsWithCI_get (fold : Char → Char) (s pat : QString)
    (h : startsWithCI fold s pat = true) (i : Nat) (hi : i < pat.length) :
    (s.get? i).map fold = (pat.get? i).map fold := by
  unfold startsWithCI at h
  obtain ⟨t, ht⟩ := List.isPrefixOf_iff_prefix.mp h
  have h1 : (s.map fold)[i]? = (pat.map fold)[i]? := by
    rw [← ht]
    exact List.getElem?_append_left (by simpa using hi)
  simpa using h1

/-- A line that starts with `/msg ` under a separating case folding starts
with no other pattern whose character at position `i` folds differently. -/
theorem startsWithCI_msg_excludes (fold : Char → Char) (line pat : QString)
    (hmsg : startsWithCI fold line "/msg ".toList = true) (i : Nat) (hi : i < 5)
    (hp : i < pat.length)
    (hne : ("/msg ".toList.get? i).map fold ≠ (pat.get? i).map fold) :
    startsWithCI fold line pat = false := by
  cases h : startsWithCI fold line pat with
  | false => rfl
  | true =>
    have h1 := startsWithCI_get fold line pat h i hp
    have h2 := startsWithCI_get fold line "/msg ".toList hmsg i (by simpa using hi)
    exact absurd (h2.symm.trans h1) hne

/-- The loop of `QString::section` never loses what it has collected. -/
theorem sectionLoop_ne_nil_of_ret (sep : Char) (start stop : Int) (skipEmpty : Bool) :
    ∀ (secs : List QString) (x : Int) (ret : QString), ret ≠ [] →
      sectionLoop sep start stop skipEmpty secs x ret ≠ [] := by
  intro secs
  induction secs with
  | nil => intro x ret h; exact h
  | cons sec rest ih =>
    intro x ret h
    unfold sectionLoop
    by_cases hx : x ≤ stop
    · simp only [hx, if_true]
      apply ih
      by_cases hs : start ≤ x
      · by_cases hs1 : start < x <;> simp [hs, hs1, h]
      · simp [hs, h]
    · simp only [hx, if_false]
      exact h

/-- While non-empty fields remain beyond position `start`, the loop of
`QString::section` (empty fields skipped) collects a non-empty text. -/
theorem sectionLoop_ne_nil (sep : Char) (start stop : Int) (hle : start ≤ stop) :
    ∀ (secs : List QString) (x : Int) (ret : QString), x ≤ start →
      start < x + ((secs.filter (fun f => !f.isEmpty)).length : Int) →
      sectionLoop sep start stop true secs x ret ≠ [] := by
  intro secs
  induction secs with
  | nil =>
    intro x ret hx hn
    simp at hn
    omega
  | cons sec rest ih =>
    intro x ret hx hn
    unfold sectionLoop
    have hxs : x ≤ stop := le_trans hx hle
    simp only [hxs, if_true]
    cases hsec : sec.isEmpty with
    | true =>
      have hn1 : start < x + ((rest.filter (fun f => !f.isEmpty)).length : Int) := by
        simpa [List.filter, hsec] using hn
      simpa [hsec] using ih x _ hx hn1
    | false =>
      have hne : sec ≠ [] := by
        intro h
        rw [h] at hsec
        exact Bool.noConfusion hsec
      by_cases hlt : x < start
      · have hn1 : start < (x + 1) + ((rest.filter (fun f => !f.isEmpty)).length : Int) := by
          have : start < x + (((rest.filter (fun f => !f.isEmpty)).length : Int) + 1) := by
            simpa [List.filter, hsec] using hn
          omega
        simpa [hsec] using ih (x + 1) _ (by omega) hn1
      · have hxe : x = start := by omega
        have hs : start ≤ x := by omega
        have hs1 : ¬ start < x := by omega
        simp only [hs, hs1, if_true, if_false, hsec]
        apply sectionLoop_ne_nil_of_ret
        simp [hne]

/-- The message part of a `/msg` line (the section from field 2 on, empty
fields skipped) is empty exactly when the line has at most two non-empty
fields. -/
theorem qsection_from_two_eq_nil_iff (line : QString) :
    qsection line ' ' 2 (-1) true = [] ↔ (fields line).length ≤ 2 := by
  constructor
  · intro h
    by_contra hlen
    have hlen1 : 3 ≤ (fields line).length := by omega
    have hsum := List.length_eq_length_filter_add (l := split ' ' line) (fun f => f.isEmpty)
    unfold fields at hlen1
    unfold qsection at h
    have h1 : ((-1 : Int) < 0) := by decide
    have h2 : ¬ ((2 : Int) < 0) := by decide
    simp only [if_true, h1, h2, if_false] at h
    refine sectionLoop_ne_nil ' ' 2 _ ?_ (split ' ' line) 0 [] (by decide) ?_ h
    · omega
    · have : (3 : Int) ≤ ((List.filter (fun f => !f.isEmpty) (split ' ' line)).length : Int) := by
        exact_mod_cast hlen1
      omega
  · exact qsection_from_two_of_fields_le line

/-- The equality test under case folding fails for a line that starts with
`/msg ` when the other string differs at position 1. -/
theorem equalsCI_clear_of_msg (fold : Char → Char) (line : QString)
    (hsep : foldSeparates fold)
    (hmsg : startsWithCI fold line "/msg ".toList = true) :
    equalsCI fold line "/clear".toList = false := by
  have h2 := startsWithCI_get fold line "/msg ".toList hmsg 1 (by decide)
  unfold equalsCI
  rw [decide_eq_false_iff_not]
  intro h
  have h1 : (line.map fold)[1]? = (("/clear".toList).map fold)[1]? := by rw [h]
  have h3 : (line.get? 1).map fold = some (fold 'c') := by simpa using h1
  rw [h3] at h2
  have h4 : fold 'c' = fold 'm' := by simpa using h2
  exact hsep.1 h4.symm

/-- C10: for every input line that starts with `/msg ` (under a case folding
that keeps the command letters apart) and has at most two non-empty fields
(the command and possibly a recipient, no message text),
`ChatInputReturnPressed` clears the input field, appends the entry
`error: /msg requires a username and a message.` and does nothing else: the
trace is unchanged (no lock, no `GetStatus`, no `ChatMessage_Send`) and no
other chat entry is appended, whatever the status of the client. -/
theorem ChatInputReturnPressed_msg_without_text (fold : Char → Char) (w : MainWindow)
    (hsep : foldSeparates fold)
    (hmsg : startsWithCI fold w.chatInput "/msg ".toList = true)
    (hfields : (fields w.chatInput).length ≤ 2) :
    ChatInputReturnPressed fold w =
      { w with chatInput := [],
               chatOutput := w.chatOutput ++
                 [ChatLine.mk "error: /msg requires a username and a message.".toList []] } := by
  obtain ⟨hc, ht, hk, hb, ha, he⟩ := hsep
  have h0 := equalsCI_clear_of_msg fold w.chatInput ⟨hc, ht, hk, hb, ha, he⟩ hmsg
  have h1 : startsWithCI fold w.chatInput "/me ".toList = false :=
    startsWithCI_msg_excludes fold _ _ hmsg 2 (by decide) (by decide) (by simpa using he)
  have h2 : startsWithCI fold w.chatInput "/topic ".toList = false :=
    startsWithCI_msg_excludes fold _ _ hmsg 1 (by decide) (by decide) (by simpa using ht)
  have h3 : startsWithCI fold w.chatInput "/kick ".toList = false :=
    startsWithCI_msg_excludes fold _ _ hmsg 1 (by decide) (by decide) (by simpa using hk)
  have h4 : startsWithCI fold w.chatInput "/bpm ".toList = false :=
    startsWithCI_msg_excludes fold _ _ hmsg 1 (by decide) (by decide) (by simpa using hb)
  have h5 : startsWithCI fold w.chatInput "/bpi ".toList = false :=
    startsWithCI_msg_excludes fold _ _ hmsg 1 (by decide) (by decide) (by simpa using hb)
  have h6 : startsWithCI fold w.chatInput "/admin ".toList = false :=
    startsWithCI_msg_excludes fold _ _ hmsg 1 (by decide) (by decide) (by simpa using ha)
  have h7 := qsection_from_two_of_fields_le w.chatInput hfields
  unfold ChatInputReturnPressed
  simp only [h0, h1, h2, h3, h4, h5, h6, h7, hmsg, Bool.or_self, if_true, if_false,
    Bool.false_eq_true, isEmpty, List.isEmpty, chatAddLine]
  rfl

/-- The end of `ChatInputReturnPressed` on a client that is not connected:
the status is read under the lock, nothing is sent, the notice is appended. -/
theorem sendChat_not_connected (w : MainWindow) (command parm msg : QString)
    (h : w.client.status ≠ NJC_STATUS_OK) :
    sendChat w command parm msg =
      { w with trace := w.trace ++ [Event.lock, Event.client ClientOp.GetStatus, Event.unlock],
               chatOutput := w.chatOutput ++ [notConnectedNotice] } := by
  simp [sendChat, MainWindow.log, chatAddLine, h, notConnectedNotice]

/-- C3 as stated fails: on a client that is not connected the input line
`/clear` empties the chat output, so the not-connected notice is not in it
afterwards. -/
theorem ChatInputReturnPressed_clear_shows_no_notice :
    (MainWindow.constructed dataFS).client.status ≠ NJC_STATUS_OK ∧
    notConnectedNotice ∉
      (ChatInputReturnPressed asciiFold
        { MainWindow.constructed dataFS with chatInput := "/clear".toList }).chatOutput := by
  decide

/-- C3, amended: when the client status is not `NJC_STATUS_OK`,
`ChatInputReturnPressed` adds no `ChatMessage_Send` to the trace for any
input line; and unless the line is `/clear` or a `/msg ` line with fewer than
three non-empty fields (the two inputs handled locally), it appends the
notice `error: not connected to a server.`: the chat output afterwards is
the chat output before, followed by nothing or (for a `/msg ` line) by the
echo `-> *user* message`, followed by the notice as the last entry. -/
theorem ChatInputReturnPressed_not_connected (fold : Char → Char) (w : MainWindow)
    (hstatus : w.client.status ≠ NJC_STATUS_OK) :
    (∀ parms, Event.client (ClientOp.ChatMessage_Send parms) ∉
        (ChatInputReturnPressed fold w).trace.drop w.trace.length) ∧
    (equalsCI fold w.chatInput "/clear".toList = false →
      (startsWithCI fold w.chatInput "/msg ".toList = true → 3 ≤ (fields w.chatInput).length) →
      (∃ pre : List ChatLine,
        (ChatInputReturnPressed fold w).chatOutput
          = w.chatOutput ++ pre ++ [notConnectedNotice] ∧
        (pre = [] ∨
         pre = [ChatLine.mk (arg "-> *%1* ".toList (qsection w.chatInput ' ' 1 1 true))
                  (qsection w.chatInput ' ' 2 (-1) true)])) ∧
      (ChatInputReturnPressed fold w).chatOutput.getLast? = some notConnectedNotice) := by
  have hsend : ∀ (v : MainWindow) (c p m : QString), v.client = w.client → v.trace = w.trace →
      (∀ parms, Event.client (ClientOp.ChatMessage_Send parms) ∉
        (sendChat v c p m).trace.drop w.trace.length) ∧
      (sendChat v c p m).chatOutput = v.chatOutput ++ [notConnectedNotice] := by
    intro v c p m hc ht
    rw [sendChat_not_connected v c p m (by rw [hc]; exact hstatus)]
    simp [ht]
  constructor
  · intro parms
    unfold ChatInputReturnPressed
    simp only []
    split_ifs
    · simp
    · exact (hsend _ _ _ _ (by rfl) (by rfl)).1 parms
    · exact (hsend _ _ _ _ (by rfl) (by rfl)).1 parms
    · exact (hsend _ _ _ _ (by rfl) (by rfl)).1 parms
    · simp [chatAddLine]
    · exact (hsend _ _ _ _ (by rfl) (by rfl)).1 parms
    · exact (hsend _ _ _ _ (by rfl) (by rfl)).1 parms
  · intro hclear hmsg
    have hpre : ∃ pre : List ChatLine,
        (ChatInputReturnPressed fold w).chatOutput
          = w.chatOutput ++ pre ++ [notConnectedNotice] ∧
        (pre = [] ∨
         pre = [ChatLine.mk (arg "-> *%1* ".toList (qsection w.chatInput ' ' 1 1 true))
                  (qsection w.chatInput ' ' 2 (-1) true)]) := by
      unfold ChatInputReturnPressed
      simp only [hclear, Bool.false_eq_true, if_false]
      split_ifs with h1 h2 h3 h4 h5
      · exact ⟨[], by rw [(hsend _ _ _ _ (by rfl) (by rfl)).2]; simp, Or.inl rfl⟩
      · exact ⟨[], by rw [(hsend _ _ _ _ (by rfl) (by rfl)).2]; simp, Or.inl rfl⟩
      · exact ⟨[], by rw [(hsend _ _ _ _ (by rfl) (by rfl)).2]; simp, Or.inl rfl⟩
      · exfalso
        have h6 : qsection w.chatInput ' ' 2 (-1) true = [] := by
          simpa [isEmpty] using h5
        have := (qsection_from_two_eq_nil_iff w.chatInput).mp h6
        have := hmsg h4
        omega
      · exact ⟨_, by rw [(hsend _ _ _ _ (by rfl) (by rfl)).2]; simp [chatAddLine], Or.inr rfl⟩
      · exact ⟨[], by rw [(hsend _ _ _ _ (by rfl) (by rfl)).2]; simp, Or.inl rfl⟩
    refine ⟨hpre, ?_⟩
    obtain ⟨pre, h, _⟩ := hpre
    rw [h]
    simp

/-- Witness of C3 (amended): the line `hello` typed into a freshly
constructed, not connected window. -/
theorem ChatInputReturnPressed_not_connected_witness :
    (∀ parms, Event.client (ClientOp.ChatMessage_Send parms) ∉
        (ChatInputReturnPressed asciiFold
          { MainWindow.constructed dataFS with chatInput := "hello".toList }).trace.drop 0) ∧
    (∃ pre : List ChatLine,
      (ChatInputReturnPressed asciiFold
        { MainWindow.constructed dataFS with chatInput := "hello".toList }).chatOutput
        = [] ++ pre ++ [notConnectedNotice] ∧
      (pre = [] ∨
       pre = [ChatLine.mk (arg "-> *%1* ".toList (qsection "hello".toList ' ' 1 1 true))
                (qsection "hello".toList ' ' 2 (-1) true)])) ∧
    (ChatInputReturnPressed asciiFold
      { MainWindow.constructed dataFS with chatInput := "hello".toList }).chatOutput
      = [notConnectedNotice] :=
  ⟨(ChatInputReturnPressed_not_connected asciiFold
      { MainWindow.constructed dataFS with chatInput := "hello".toList } (by decide)).1,
   ((ChatInputReturnPressed_not_connected asciiFold
      { MainWindow.constructed dataFS with chatInput := "hello".toList } (by decide)).2
      (by decide) (by decide)).1,
   by decide⟩

/-- Witness of C10: the line `/MSG bob` (a recipient, no message). -/
theorem ChatInputReturnPressed_msg_without_text_witness :
    ChatInputReturnPressed asciiFold
        { MainWindow.constructed dataFS with chatInput := "/MSG bob".toList } =
      { MainWindow.constructed dataFS with
          chatInput := [],
          chatOutput := [ChatLine.mk "error: /msg requires a username and a message.".toList []] } :=
  ChatInputReturnPressed_msg_without_text asciiFold
    { MainWindow.constructed dataFS with chatInput := "/MSG bob".toList }
    (by unfold foldSeparates; decide) (by decide) (by decide)

/-! ## Disconnect -/


/-- The state after `Disconnect`, field by field. -/
theorem Disconnect_eq (w : MainWindow) :
    Disconnect w =
      { client := (w.client.Disconnect).SetWorkDir none
        audio := none
        connectAction := true
        disconnectAction := false
        audioConfigAction := true
        windowTitle := "Wahjam".toList
        chatOutput := if cleanupDue w then w.chatOutput ++ [ChatLine.mk "Disconnected".toList []]
          else w.chatOutput
        chatInput := w.chatInput
        bpmLabel := "BPM: N/A".toList
        bpiLabel := "BPI: N/A".toList
        fs := if cleanupDue w then cleanupWorkDir w.fs w.client.workDir else w.fs
        trace := w.trace ++ [Event.lock, Event.client ClientOp.Disconnect,
            Event.client ClientOp.GetWorkDir, Event.client ClientOp.config_savelocalaudio,
            Event.client (ClientOp.SetWorkDir none), Event.unlock] ++
          (if cleanupDue w then [Event.cleanupWorkDir w.client.workDir] else []) ++
          [Event.Disconnected] } := by
  dsimp only [Disconnect, cleanupDue, MainWindow.log, NJClient.Disconnect, NJClient.SetWorkDir,
    Option.getD]
  split_ifs <;> simp [chatAddLine, BeatsPerMinuteChanged, BeatsPerIntervalChanged]

/-- C2: for every state, when the work-dir field is empty or
`config_savelocalaudio` is set, `Disconnect` leaves the file system as it is,
does not run `cleanupWorkDir` and appends no chat entry (the model is total:
no error is raised); and `cleanupWorkDir` runs exactly when the work-dir
field is not empty and `config_savelocalaudio` is zero. -/
theorem Disconnect_cleanup_only_when_due (w : MainWindow) :
    ((w.client.workDir = [] ∨ w.client.config_savelocalaudio ≠ 0) →
      (Disconnect w).fs = w.fs ∧
      (Disconnect w).chatOutput = w.chatOutput ∧
      (∀ path, Event.cleanupWorkDir path ∉ (Disconnect w).trace.drop w.trace.length)) ∧
    ((∃ path, Event.cleanupWorkDir path ∈ (Disconnect w).trace.drop w.trace.length) ↔
      (w.client.workDir ≠ [] ∧ w.client.config_savelocalaudio = 0)) := by
  rw [Disconnect_eq]
  have hdue : cleanupDue w = true ↔ (w.client.workDir ≠ [] ∧ w.client.config_savelocalaudio = 0) := by
    simp [cleanupDue, isEmpty_eq_decide]
  constructor
  · intro h
    have hnot : cleanupDue w = false := by
      cases hc : cleanupDue w with
      | false => rfl
      | true =>
        obtain ⟨h1, h2⟩ := hdue.mp hc
        rcases h with h | h
        · exact absurd h h1
        · exact absurd h2 h
    simp [hnot]
  · cases hc : cleanupDue w with
    | false =>
      have hn : ¬ (w.client.workDir ≠ [] ∧ w.client.config_savelocalaudio = 0) := by
        intro h
        rw [hdue.mpr h] at hc
        exact Bool.noConfusion hc
      simp only [Bool.false_eq_true, if_false, List.append_nil, List.append_assoc,
        List.drop_left, iff_false_intro hn, iff_false]
      simp
    | true =>
      simp only [if_true, List.append_assoc, List.drop_left, iff_true_intro (hdue.mp hc), iff_true]
      exact ⟨w.client.workDir, by simp⟩

/-- Witness of C2: a window whose work-dir field is empty. -/
theorem Disconnect_cleanup_only_when_due_witness :
    (Disconnect (MainWindow.constructed dataFS)).fs = dataFS ∧
    (Disconnect (MainWindow.constructed dataFS)).chatOutput = [] ∧
    (∀ path, Event.cleanupWorkDir path ∉
      (Disconnect (MainWindow.constructed dataFS)).trace.drop 0) :=
  (Disconnect_cleanup_only_when_due (MainWindow.constructed dataFS)).1 (Or.inl rfl)

/-! ## Status changes -/


/-- For a negative status `ClientStatusChanged` shows the status line and
then runs `Disconnect`. -/
theorem ClientStatusChanged_neg (w : MainWindow) (newStatus : Int) (h : newStatus < 0) :
    ClientStatusChanged w newStatus =
      Disconnect (chatAddLine (w.log (Event.client ClientOp.GetErrorStr))
        (failureMessage w newStatus) []) := by
  have hne : newStatus ≠ NJC_STATUS_OK := by
    intro h0
    rw [h0] at h
    exact absurd h (by decide)
  unfold ClientStatusChanged failureMessage
  simp only [hne, h, if_true, if_false]
  split_ifs <;> rfl

/-- For `NJC_STATUS_OK` the handler `ClientStatusChanged` reads host and user
name and shows the status line; nothing else changes. -/
theorem ClientStatusChanged_ok (w : MainWindow) :
    ClientStatusChanged w NJC_STATUS_OK =
      { w with
        chatOutput := w.chatOutput ++
          [ChatLine.mk (arg2 "Connected to %1 as %2".toList w.client.host w.client.user) []]
        trace := w.trace ++ [Event.client ClientOp.GetErrorStr, Event.lock,
          Event.client ClientOp.GetHostName, Event.client ClientOp.GetUserName, Event.unlock] } := by
  have h : ¬ (NJC_STATUS_OK < 0) := by decide
  unfold ClientStatusChanged
  simp only [h, if_true, if_false]
  simp [chatAddLine, MainWindow.log]

/-- C7: when `ClientStatusChanged` receives one of the session-failure codes
(`NJC_STATUS_DISCONNECTED`, `NJC_STATUS_INVALIDAUTH`, `NJC_STATUS_CANTCONNECT`)
it runs `Disconnect` after showing the status line, and afterwards the audio
streamer is `NULL`, the work-dir field of the client is empty, the connect and
audio-config actions are enabled and the disconnect action is disabled; when
it receives `NJC_STATUS_OK`, `Disconnect` is not run: client, audio streamer,
actions, window title and file system are as before, and the trace gains only
the reads of error string, host name and user name. -/
theorem ClientStatusChanged_disconnects_on_failure (w : MainWindow) (newStatus : Int) :
    ((newStatus = NJC_STATUS_DISCONNECTED ∨ newStatus = NJC_STATUS_INVALIDAUTH ∨
        newStatus = NJC_STATUS_CANTCONNECT) →
      (∃ line, ClientStatusChanged w newStatus =
        Disconnect (chatAddLine (w.log (Event.client ClientOp.GetErrorStr)) line [])) ∧
      (ClientStatusChanged w newStatus).audio = none ∧
      (ClientStatusChanged w newStatus).client.workDir = [] ∧
      (ClientStatusChanged w newStatus).connectAction = true ∧
      (ClientStatusChanged w newStatus).audioConfigAction = true ∧
      (ClientStatusChanged w newStatus).disconnectAction = false ∧
      Event.client ClientOp.Disconnect ∈ (ClientStatusChanged w newStatus).trace.drop w.trace.length) ∧
    (newStatus = NJC_STATUS_OK →
      (ClientStatusChanged w newStatus).client = w.client ∧
      (ClientStatusChanged w newStatus).audio = w.audio ∧
      (ClientStatusChanged w newStatus).connectAction = w.connectAction ∧
      (ClientStatusChanged w newStatus).audioConfigAction = w.audioConfigAction ∧
      (ClientStatusChanged w newStatus).disconnectAction = w.disconnectAction ∧
      (ClientStatusChanged w newStatus).windowTitle = w.windowTitle ∧
      (ClientStatusChanged w newStatus).fs = w.fs ∧
      (ClientStatusChanged w newStatus).trace = w.trace ++ [Event.client ClientOp.GetErrorStr,
        Event.lock, Event.client ClientOp.GetHostName, Event.client ClientOp.GetUserName,
        Event.unlock]) := by
  constructor
  · intro h
    have hneg : newStatus < 0 := by
      rcases h with h | h | h <;> rw [h] <;> decide
    rw [ClientStatusChanged_neg w newStatus hneg]
    refine ⟨⟨_, rfl⟩, ?_⟩
    rw [Disconnect_eq]
    simp [chatAddLine, MainWindow.log, NJClient.SetWorkDir]
  · intro h
    rw [h, ClientStatusChanged_ok]
    simp

/-- Witness of C7: the code `NJC_STATUS_DISCONNECTED` delivered to a freshly
constructed window. -/
theorem ClientStatusChanged_disconnects_on_failure_witness :
    (ClientStatusChanged (MainWindow.constructed dataFS) NJC_STATUS_DISCONNECTED).audio = none ∧
    (ClientStatusChanged (MainWindow.constructed dataFS) NJC_STATUS_DISCONNECTED).client.workDir
      = [] ∧
    (ClientStatusChanged (MainWindow.constructed dataFS) NJC_STATUS_OK).trace
      = [Event.client ClientOp.GetErrorStr, Event.lock, Event.client ClientOp.GetHostName,
        Event.client ClientOp.GetUserName, Event.unlock] :=
  ⟨((ClientStatusChanged_disconnects_on_failure (MainWindow.constructed dataFS)
      NJC_STATUS_DISCONNECTED).1 (Or.inl rfl)).2.1,
   ((ClientStatusChanged_disconnects_on_failure (MainWindow.constructed dataFS)
      NJC_STATUS_DISCONNECTED).1 (Or.inl rfl)).2.2.1,
   ((ClientStatusChanged_disconnects_on_failure (MainWindow.constructed dataFS)
      NJC_STATUS_OK).2 rfl).2.2.2.2.2.2.2⟩

/-! ## Work-directory clean-up -/

/-- The last component of a path holds no separator. -/
theorem fileName_no_slash (p : QString) : '/' ∉ fileName p := by
  unfold fileName
  intro h
  have h1 : '/' ∈ List.takeWhile (fun c => decide (c ≠ '/')) p.reverse := by
    simpa using h
  have h2 := List.mem_takeWhile_imp h1
  simp at h2

/-- The parent of a path is an initial piece of the path. -/
theorem parentPath_prefix (p : QString) : parentPath p <+: p := by
  unfold parentPath
  simp only []
  split_ifs with h
  · cases p with
    | nil => simp at h
    | cons c t =>
      have hc : c = '/' := by
        have h2 := (Bool.and_eq_true _ _).mp h
        simpa using h2.2
      rw [hc]
      exact ⟨t, rfl⟩
  · have h1 : List.drop 1 (List.dropWhile (fun c => decide (c ≠ '/')) p.reverse) <:+ p.reverse :=
      (List.drop_suffix 1 _).trans (List.dropWhile_suffix _)
    have h2 := List.reverse_prefix.mpr h1
    simpa using h2

/-- A directory and a separator-free, non-empty name give a path whose parent
is that directory. -/
theorem parentPath_filePath (dir name : QString) (hdir : QDir dir = dir) (hne : name ≠ [])
    (hname : '/' ∉ name) : parentPath (filePath dir name) = dir := by
  have hall : ∀ a ∈ name.reverse, (fun c => decide (c ≠ '/')) a = true := by
    intro a ha
    have : a ∈ name := by simpa using ha
    simp only [ne_eq, decide_not, Bool.not_eq_true', decide_eq_false_iff_not]
    intro h
    exact hname (h ▸ this)
  obtain ⟨c, t, hct⟩ : ∃ c t, name = c :: t := by
    cases name with
    | nil => exact absurd rfl hne
    | cons c t => exact ⟨c, t, rfl⟩
  have hc : c ≠ '/' := by
    intro h
    apply hname
    rw [hct, h]
    exact List.mem_cons_self _ _
  have hhead : ¬ (name.head? = some '/') := by
    rw [hct]
    simpa using hc
  have hemp : name.isEmpty = false := by
    rw [hct]
    rfl
  unfold filePath
  simp only [hhead, hemp, if_false, Bool.false_eq_true]
  by_cases hd : dir = []
  · -- the empty directory path
    subst hd
    simp only [List.isEmpty_nil, true_or, if_true, List.nil_append]
    unfold parentPath
    have h1 : List.dropWhile (fun c => decide (c ≠ '/')) name.reverse = [] := by
      have h0 : List.dropWhile (fun c => decide (c ≠ '/')) (name.reverse ++ [])
          = List.dropWhile (fun c => decide (c ≠ '/')) [] :=
        List.dropWhile_append_of_pos hall
      simpa using h0
    simp only [h1, List.drop_nil, List.reverse_nil, List.isEmpty_nil, Bool.true_and]
    rw [hct]
    simp [hc]
  · by_cases hl : dir.getLast? = some '/'
    · -- only the root ends with a separator
      have hroot : dir = ['/'] := by
        unfold QDir at hdir
        by_cases h1 : 1 < dir.length
        · rw [if_pos ⟨h1, hl⟩] at hdir
          have := congrArg List.length hdir
          simp at this
          omega
        · cases dir with
          | nil => exact absurd rfl hd
          | cons a u =>
            cases u with
            | nil =>
              have : a = '/' := by simpa using hl
              rw [this]
            | cons b v => simp at h1
      subst hroot
      have hcond : (['/'] : QString).isEmpty = true ∨ (['/'] : QString).getLast? = some '/' :=
        Or.inr rfl
      simp only [hcond, if_true]
      unfold parentPath
      have h1 : List.dropWhile (fun c => decide (c ≠ '/')) (['/'] ++ name).reverse = ['/'] := by
        rw [List.reverse_append, List.dropWhile_append_of_pos hall]
        rfl
      simp only [h1]
      rfl
    · have hcond : ¬ (dir.isEmpty = true ∨ dir.getLast? = some '/') := by
        intro h
        rcases h with h | h
        · exact hd (List.isEmpty_iff.mp h)
        · exact hl h
      simp only [hcond, if_false]
      unfold parentPath
      have h1 : List.dropWhile (fun c => decide (c ≠ '/')) (dir ++ '/' :: name).reverse
          = '/' :: dir.reverse := by
        rw [List.reverse_append, List.reverse_cons, List.append_assoc,
          List.dropWhile_append_of_pos hall]
        rfl
      simp only [h1, List.drop_one, List.tail_cons, List.reverse_reverse]
      have h2 : dir.isEmpty = false := by
        cases dir with
        | nil => exact absurd rfl hd
        | cons a u => rfl
      simp [h2]

/-- The call `remove` deletes at most the file entry of its path. -/
theorem mem_remove (fs : FileSystem) (x : QString) (e : QString × Kind)
    (he : e ∈ fs) (hne : e ≠ (x, Kind.file)) : e ∈ (remove fs x).2 := by
  unfold remove
  split_ifs
  · simp only [List.mem_filter]
    exact ⟨he, by simpa using hne⟩
  · exact he

/-- The call `rmdir` deletes no regular file. -/
theorem mem_rmdir_file (fs : FileSystem) (x g : QString) (hg : (g, Kind.file) ∈ fs) :
    (g, Kind.file) ∈ (rmdir fs x).2 := by
  unfold rmdir
  split_ifs
  · simp only [List.mem_filter]
    exact ⟨hg, by simp⟩
  · exact hg

/-- The call `rmdir` deletes no directory that has an entry inside. -/
theorem mem_rmdir_dir (fs : FileSystem) (x d c : QString) (k : Kind)
    (hd : (d, Kind.dir) ∈ fs) (hc : (c, k) ∈ fs) (hpar : parentPath c = d) (hne : c ≠ d) :
    (d, Kind.dir) ∈ (rmdir fs x).2 := by
  have hchild : c ∈ entries fs d k := by
    unfold entries
    simp only [List.mem_map, List.mem_filter]
    exact ⟨(c, k), ⟨hc, by simp [hpar, hne]⟩, rfl⟩
  unfold rmdir
  split_ifs with h
  · simp only [List.mem_filter]
    refine ⟨hd, ?_⟩
    have hxd : x ≠ d := by
      intro hx
      rw [hx] at h
      cases k with
      | file => rw [h.2.2] at hchild; exact absurd hchild (List.not_mem_nil _)
      | dir => rw [h.2.1] at hchild; exact absurd hchild (List.not_mem_nil _)
    simpa using fun h1 => hxd h1.symm
  · exact hd

/-- The call `rmdir` keeps a file in a subdirectory, the subdirectory and the
work directory: each of the two directories has an entry inside. -/
theorem Kept_rmdir (dir sub f x : QString) (fs : FileSystem)
    (hfsub : parentPath f = sub) (hsubdir : parentPath sub = dir) (hne : sub ≠ dir)
    (h : Kept dir sub f fs) : Kept dir sub f (rmdir fs x).2 := by
  obtain ⟨h1, h2, h3⟩ := h
  have hfne : f ≠ sub := by
    intro hf
    rw [hf] at hfsub
    exact hne (hfsub.symm.trans hsubdir)
  exact ⟨mem_rmdir_file fs x f h1, mem_rmdir_dir fs x sub f Kind.file h2 h1 hfsub hfne,
    mem_rmdir_dir fs x dir sub Kind.dir h3 h2 hsubdir hne⟩

/-- A file inside a subdirectory of `dir` is not the file path of a
separator-free name in `dir`. -/
theorem filePath_ne_of_parent (dir sub f name : QString) (hdir : QDir dir = dir)
    (hfsub : parentPath f = sub) (hsubdir : parentPath sub = dir) (hne : sub ≠ dir)
    (hname : '/' ∉ name) : filePath dir name ≠ f := by
  intro h
  by_cases hn : name = []
  · -- the empty name stands for the directory itself
    have hfd : f = dir := by
      rw [← h, hn]
      rfl
    have hp1 : sub <+: dir := by
      have := parentPath_prefix f
      rwa [hfsub, hfd] at this
    have hp2 : dir <+: sub := by
      have := parentPath_prefix sub
      rwa [hsubdir] at this
    exact hne (hp1.eq_of_length_le hp2.length_le)
  · have := parentPath_filePath dir name hdir hn hname
    rw [h, hfsub] at this
    exact hne this

/-- The inner loop of `cleanupWorkDir`, which removes files listed in
`dir`. -/
theorem Kept_remove_loop (dir sub f : QString) (hdir : QDir dir = dir)
    (hfsub : parentPath f = sub) (hsubdir : parentPath sub = dir) (hne : sub ≠ dir)
    (names : List QString) (hnames : ∀ n ∈ names, '/' ∉ n) :
    ∀ fs : FileSystem, Kept dir sub f fs →
      Kept dir sub f (names.foldl (fun (fs : FileSystem) (file : QString) =>
        (remove fs (filePath dir file)).2) fs) := by
  induction names with
  | nil => intro fs h; exact h
  | cons n ns ih =>
    intro fs h
    simp only [List.foldl_cons]
    apply ih (fun m hm => hnames m (List.mem_cons_of_mem _ hm))
    obtain ⟨h1, h2, h3⟩ := h
    have hx : filePath dir n ≠ f :=
      filePath_ne_of_parent dir sub f n hdir hfsub hsubdir hne (hnames n (List.mem_cons_self _ _))
    refine ⟨mem_remove fs _ _ h1 ?_, mem_remove fs _ _ h2 (by simp), mem_remove fs _ _ h3 (by simp)⟩
    intro he
    exact hx (congrArg Prod.fst he).symm

/-- The outer loop of `cleanupWorkDir` over subdirectory entries of `dir`. -/
theorem Kept_subdir_loop (dir sub f : QString) (hdir : QDir dir = dir)
    (hfsub : parentPath f = sub) (hsubdir : parentPath sub = dir) (hne : sub ≠ dir)
    (infos : List QString) (hinfos : ∀ q ∈ infos, parentPath q = dir) :
    ∀ fs : FileSystem, Kept dir sub f fs →
      Kept dir sub f (infos.foldl (fun (fs : FileSystem) (subdirInfo : QString) =>
        let subdir := absoluteDir subdirInfo
        let fs2 := (entryList fs subdir).foldl (fun (fs : FileSystem) (file : QString) =>
          (remove fs (filePath subdir file)).2) fs
        (rmdir fs2 (filePath dir (fileName subdirInfo))).2) fs) := by
  induction infos with
  | nil => intro fs h; exact h
  | cons q qs ih =>
    intro fs h
    simp only [List.foldl_cons]
    apply ih (fun m hm => hinfos m (List.mem_cons_of_mem _ hm))
    have hq : absoluteDir q = dir := by
      unfold absoluteDir
      rw [hinfos q (List.mem_cons_self _ _), hdir]
    rw [hq]
    apply Kept_rmdir dir sub f _ _ hfsub hsubdir hne
    apply Kept_remove_loop dir sub f hdir hfsub hsubdir hne _ _ fs h
    intro n hn
    unfold entryList at hn
    obtain ⟨r, _, hr⟩ := List.mem_map.mp hn
    rw [← hr]
    exact fileName_no_slash r

/-- C1 (the code falls short of it): for every file system and every work
directory, a regular file `f` inside an immediate subdirectory `sub` of the
work directory survives `cleanupWorkDir`, and with it the subdirectory and the
work directory: `subdir` is `subdirInfo.absoluteDir()`, the work directory
itself, so the files inside `sub` are never listed, `rmdir` of the non-empty
`sub` fails and so does `rmdir` of the work directory. -/
theorem cleanupWorkDir_leaves_recorded_files (fs : FileSystem) (path sub f : QString)
    (hdir : QDir (QDir path) = QDir path)
    (hwork : (QDir path, Kind.dir) ∈ fs)
    (hsub : (sub, Kind.dir) ∈ fs) (hsubdir : parentPath sub = QDir path) (hne : sub ≠ QDir path)
    (hf : (f, Kind.file) ∈ fs) (hfsub : parentPath f = sub) :
    (f, Kind.file) ∈ cleanupWorkDir fs path ∧
    (sub, Kind.dir) ∈ cleanupWorkDir fs path ∧
    (QDir path, Kind.dir) ∈ cleanupWorkDir fs path := by
  unfold cleanupWorkDir
  simp only []
  apply Kept_rmdir (QDir path) sub f _ _ hfsub hsubdir hne
  apply Kept_subdir_loop (QDir path) sub f hdir hfsub hsubdir hne _ _ fs ⟨hf, hsub, hwork⟩
  intro q hq
  unfold entryInfoList at hq
  have hq1 := (List.mem_filter.mp hq).1
  unfold entries at hq1
  obtain ⟨e, he, heq⟩ := List.mem_map.mp hq1
  have := (List.mem_filter.mp he).2
  rw [← heq]
  simp only [Bool.and_eq_true, decide_eq_true_eq] at this
  exact this.1.2

/-- Witness of C1: the work directory `sessionDir` with the subdirectory `0`
holding `a.ogg`; here `cleanupWorkDir` removes nothing at all, also when
reached through `Disconnect` with `config_savelocalaudio` zero, while a
regular file placed directly in the work directory is what its inner loop
deletes. -/
theorem cleanupWorkDir_leaves_recorded_files_witness :
    (("/data/20121012_1030.wahjam/0/a.ogg".toList, Kind.file) ∈ cleanupWorkDir sessionFS sessionDir ∧
     ("/data/20121012_1030.wahjam/0".toList, Kind.dir) ∈ cleanupWorkDir sessionFS sessionDir ∧
     (QDir sessionDir, Kind.dir) ∈ cleanupWorkDir sessionFS sessionDir) ∧
    cleanupWorkDir sessionFS sessionDir = sessionFS ∧
    (Disconnect sessionWindow).fs = sessionFS ∧
    Event.cleanupWorkDir sessionDir ∈ (Disconnect sessionWindow).trace ∧
    cleanupWorkDir (sessionFS ++ [("/data/20121012_1030.wahjam/notes".toList, Kind.file)])
      sessionDir = sessionFS :=
  ⟨cleanupWorkDir_leaves_recorded_files sessionFS sessionDir
      "/data/20121012_1030.wahjam/0".toList "/data/20121012_1030.wahjam/0/a.ogg".toList
      (by decide) (by decide) (by decide) (by decide) (by decide) (by decide) (by decide),
   by decide, by decide, by decide, by decide⟩

/-! ## Lock discipline -/


/-- The trace of `ClientStatusChanged` starts with the read of the error
string. -/
theorem ClientStatusChanged_trace_head (w : MainWindow) (newStatus : Int) :
    ∃ rest, (ClientStatusChanged { w with trace := [] } newStatus).trace
      = Event.client ClientOp.GetErrorStr :: rest := by
  by_cases hneg : newStatus < 0
  · rw [ClientStatusChanged_neg _ _ hneg, Disconnect_eq]
    simp [chatAddLine, MainWindow.log]
  · unfold ClientStatusChanged
    simp only [hneg, if_false]
    split_ifs <;> simp [chatAddLine, MainWindow.log]

/-- C4 (the code falls short of it): `ClientStatusChanged` reads
`client.GetErrorStr()` before it takes `clientMutex`, for every state and
status; `Connect` calls `client.SetWorkDir` (in `setupWorkDir`) and
`client.Connect` without taking the mutex at all.  `Disconnect` and
`ChatInputReturnPressed`, in contrast, access the client under the mutex
only. -/
theorem client_access_outside_mutex (w : MainWindow) (newStatus : Int) :
    accessesGuarded false (ClientStatusChanged { w with trace := [] } newStatus).trace = false ∧
    Connect goodEnv (MainWindow.constructed dataFS) "host".toList "user".toList "pass".toList
      = Outcome.running
          { MainWindow.constructed
              (dataFS ++ [("/data/20121012_1030.wahjam".toList, Kind.dir)]) with
            client := NJClient.mk NJC_STATUS_PRECONNECT [] "host".toList "user".toList
              "/data/20121012_1030.wahjam".toList 0
            audio := some (AudioStreamer.mk [] [] [])
            connectAction := false
            disconnectAction := true
            audioConfigAction := false
            windowTitle := "Wahjam - host".toList
            trace := [Event.client (ClientOp.SetWorkDir (some "/data/20121012_1030.wahjam".toList)),
              Event.client (ClientOp.Connect "host".toList "user".toList "pass".toList)] } ∧
    accessesGuarded false
      [Event.client (ClientOp.SetWorkDir (some "/data/20121012_1030.wahjam".toList)),
       Event.client (ClientOp.Connect "host".toList "user".toList "pass".toList)] = false ∧
    accessesGuarded false (Disconnect { w with trace := [] }).trace = true ∧
    (∀ fold, accessesGuarded false
      (ChatInputReturnPressed fold { w with trace := [] }).trace = true) := by
  refine ⟨?_, by decide, by decide, ?_, ?_⟩
  · obtain ⟨rest, h⟩ := ClientStatusChanged_trace_head w newStatus
    rw [h]
    rfl
  · rw [Disconnect_eq]
    cases cleanupDue { w with trace := [] } <;> rfl
  · intro fold
    have hsend : ∀ (v : MainWindow) (c p m : QString), v.trace = [] →
        accessesGuarded false (sendChat v c p m).trace = true := by
      intro v c p m hv
      unfold sendChat
      simp only [MainWindow.log, hv, chatAddLine]
      split_ifs <;> rfl
    unfold ChatInputReturnPressed
    simp only []
    split_ifs
    · rfl
    · exact hsend _ _ _ _ (by rfl)
    · exact hsend _ _ _ _ (by rfl)
    · exact hsend _ _ _ _ (by rfl)
    · rfl
    · exact hsend _ _ _ _ (by rfl)
    · exact hsend _ _ _ _ (by rfl)

/-! ## The singleton reference -/


/-- Once `abort()` was called the process stays aborted. -/
theorem runLife_aborted (ops : List LifeOp) :
    ∀ p : Process, p.aborted = true → (runLife p ops).aborted = true := by
  induction ops with
  | nil => intro p h; exact h
  | cons op ops ih =>
    intro p h
    cases op with
    | construct a =>
      apply ih
      simp [construct, h]
    | destruct a =>
      apply ih
      simp [destruct, h]

/-- A run that does not abort leaves the reference set exactly when it was
set before or a construction took place; and every object that exists is the
one the reference names, provided that held before. -/
theorem runLife_instancePtr (ops : List LifeOp) :
    ∀ p : Process, (runLife p ops).aborted = false →
      (((runLife p ops).instancePtr.isSome = true ↔
          (p.instancePtr.isSome = true ∨ ∃ a, LifeOp.construct a ∈ ops)) ∧
       ((∀ a ∈ p.live, p.instancePtr = some a) →
          ∀ a ∈ (runLife p ops).live, (runLife p ops).instancePtr = some a)) := by
  induction ops with
  | nil =>
    intro p _
    simp [runLife]
  | cons op ops ih =>
    intro p h
    have hp : p.aborted = false := by
      cases hpa : p.aborted with
      | false => rfl
      | true =>
        rw [runLife_aborted _ p hpa] at h
        exact Bool.noConfusion h
    cases op with
    | construct a =>
      have h1 : (runLife (construct p a) ops).aborted = false := h
      have hc : (construct p a).aborted = false := by
        cases hca : (construct p a).aborted with
        | false => rfl
        | true =>
          rw [runLife_aborted _ _ hca] at h1
          exact Bool.noConfusion h1
      have hnone : p.instancePtr = none := by
        cases hi : p.instancePtr with
        | none => rfl
        | some b =>
          simp [construct, hp, hi] at hc
      have hca : construct p a = { p with instancePtr := some a, live := a :: p.live } := by
        simp [construct, hp, hnone]
      obtain ⟨ih1, ih2⟩ := ih (construct p a) h1
      refine ⟨?_, ?_⟩
      · show (runLife (construct p a) ops).instancePtr.isSome = true ↔ _
        rw [ih1, hca]
        simp
      · intro hlive
        show ∀ b ∈ (runLife (construct p a) ops).live,
          (runLife (construct p a) ops).instancePtr = some b
        apply ih2
        rw [hca]
        intro b hb
        simp only [List.mem_cons] at hb
        rcases hb with hb | hb
        · rw [hb]
        · have := hlive b hb
          rw [hnone] at this
          exact Option.noConfusion this
    | destruct a =>
      have h1 : (runLife (destruct p a) ops).aborted = false := h
      have hda : destruct p a = { p with live := p.live.filter (fun b => b ≠ a) } := by
        simp [destruct, hp]
      obtain ⟨ih1, ih2⟩ := ih (destruct p a) h1
      refine ⟨?_, ?_⟩
      · show (runLife (destruct p a) ops).instancePtr.isSome = true ↔ _
        rw [ih1, hda]
        simp
      · intro hlive
        show ∀ b ∈ (runLife (destruct p a) ops).live,
          (runLife (destruct p a) ops).instancePtr = some b
        apply ih2
        rw [hda]
        intro b hb
        exact hlive b (List.mem_of_mem_filter hb)

/-- C5 as stated fails: after a `MainWindow` was constructed and destroyed no
`MainWindow` exists, yet `GetInstance` still returns the destroyed one, and
the construction of a new `MainWindow` aborts the process. -/
theorem instance_survives_destruction :
    (runLife Process.start [LifeOp.construct 1, LifeOp.destruct 1]).live = [] ∧
    GetInstance (runLife Process.start [LifeOp.construct 1, LifeOp.destruct 1]) = some 1 ∧
    (runLife Process.start [LifeOp.construct 1, LifeOp.destruct 1]).aborted = false ∧
    (runLife Process.start
      [LifeOp.construct 1, LifeOp.destruct 1, LifeOp.construct 2]).aborted = true := by
  decide

/-- C5, amended: construction sets the instance reference (and aborts the
process if it is already set) and destruction leaves it set.  So for every
sequence of constructions and destructions from the start of the process
that does not abort, `GetInstance` returns an instance if and only if a
`MainWindow` has been constructed in the sequence, whether or not it still
exists; every `MainWindow` that exists is the instance returned; and once
the reference is set, constructing a further `MainWindow` aborts the
process. -/
theorem instance_set_once (ops : List LifeOp)
    (h : (runLife Process.start ops).aborted = false) :
    ((GetInstance (runLife Process.start ops)).isSome = true ↔
        ∃ a, LifeOp.construct a ∈ ops) ∧
    (∀ a ∈ (runLife Process.start ops).live, GetInstance (runLife Process.start ops) = some a) ∧
    ((GetInstance (runLife Process.start ops)).isSome = true →
        ∀ a, (construct (runLife Process.start ops) a).aborted = true) := by
  obtain ⟨h1, h2⟩ := runLife_instancePtr ops Process.start h
  refine ⟨?_, ?_, ?_⟩
  · unfold GetInstance
    rw [h1]
    simp [Process.start]
  · unfold GetInstance
    apply h2
    intro a ha
    simp [Process.start] at ha
  · intro hs a
    unfold GetInstance at hs
    simp [construct, h, hs]

/-- Witness of C5 (amended): one construction followed by the destruction of
the same object. -/
theorem instance_set_once_witness :
    ((GetInstance (runLife Process.start [LifeOp.construct 1, LifeOp.destruct 1])).isSome = true ↔
        ∃ a, LifeOp.construct a ∈ [LifeOp.construct 1, LifeOp.destruct 1]) ∧
    (∀ a ∈ (runLife Process.start [LifeOp.construct 1, LifeOp.destruct 1]).live,
      GetInstance (runLife Process.start [LifeOp.construct 1, LifeOp.destruct 1]) = some a) ∧
    ((GetInstance (runLife Process.start [LifeOp.construct 1, LifeOp.destruct 1])).isSome = true →
        ∀ a, (construct (runLife Process.start [LifeOp.construct 1, LifeOp.destruct 1]) a).aborted
          = true) :=
  instance_set_once [LifeOp.construct 1, LifeOp.destruct 1] (by decide)

/-! ## Connect -/


/-- A naming loop that finds no free name leaves the state as it was. -/
theorem setupWorkDirLoop_false (env : Env) (basedir : QString) (is : List Nat) :
    ∀ w : MainWindow, (setupWorkDirLoop env basedir is w).1 = false →
      (setupWorkDirLoop env basedir is w).2 = w := by
  induction is with
  | nil => intro w _; rfl
  | cons i is ih =>
    intro w h
    unfold setupWorkDirLoop at h ⊢
    by_cases h1 : (mkdir w.fs (filePath basedir (workDirName env i))).1 = true
    · simp only [h1, if_true] at h
      exact absurd h (by simp)
    · simp only [h1, if_false, Bool.false_eq_true] at h ⊢
      exact ih w h

/-- A naming loop that finds a free name creates that directory, records it
in the client through `SetWorkDir` and does nothing else. -/
theorem setupWorkDirLoop_true (env : Env) (basedir : QString) (is : List Nat) :
    ∀ w : MainWindow, (setupWorkDirLoop env basedir is w).1 = true →
      ∃ path, (setupWorkDirLoop env basedir is w).2 =
        { w with fs := w.fs ++ [(path, Kind.dir)]
                 client := w.client.SetWorkDir (some path)
                 trace := w.trace ++ [Event.client (ClientOp.SetWorkDir (some path))] } := by
  induction is with
  | nil => intro w h; exact absurd h (by simp [setupWorkDirLoop])
  | cons i is ih =>
    intro w h
    unfold setupWorkDirLoop at h ⊢
    by_cases h1 : (mkdir w.fs (filePath basedir (workDirName env i))).1 = true
    · refine ⟨filePath basedir (workDirName env i), ?_⟩
      simp only [h1, if_true, MainWindow.log]
      unfold mkdir at h1 ⊢
      split_ifs at h1 ⊢ with h2
      rfl
    · simp only [h1, if_false, Bool.false_eq_true] at h ⊢
      exact ih w h

/-- C6 as stated fails: when the work directory can be created but the audio
device does not open, `Connect` shows no chat message and the process does
not keep running: it exits with status 1, the work directory just created
staying on disk and recorded in the client. -/
theorem Connect_audio_failure_exits :
    (setupWorkDir noAudioEnv (MainWindow.constructed dataFS)).1 = true ∧
    Connect noAudioEnv (MainWindow.constructed dataFS) "host".toList "user".toList "pass".toList
      = Outcome.exited 1
          { MainWindow.constructed
              (dataFS ++ [("/data/20121012_1030.wahjam".toList, Kind.dir)]) with
            client := NJClient.mk NJC_STATUS_PRECONNECT [] [] []
              "/data/20121012_1030.wahjam".toList 0
            trace :=
              [Event.client (ClientOp.SetWorkDir (some "/data/20121012_1030.wahjam".toList))] } := by
  decide

/-- C6, amended: when the work directory cannot be created, `Connect` shows
the chat entry `Unable to create work directory.`, does not call the engine
(the trace is unchanged) and leaves client, audio streamer, menu actions and
window title as they were, the process running; the only change to the file
system is what `mkpath` did for the application data directory.  When the
work directory is created but the audio device does not open, `Connect`
shows no chat entry and does not call the engine's `Connect` either, but
ends the process with exit status 1, the new work directory being recorded
in the client and left on disk. -/
theorem Connect_local_failure (env : Env) (w : MainWindow) (host user pass : QString) :
    ((setupWorkDir env w).1 = false →
      Connect env w host user pass = Outcome.running
        { w with fs := (mkpath w.fs (QDir env.dataLocation)).2
                 chatOutput := w.chatOutput ++
                   [ChatLine.mk "Unable to create work directory.".toList []] }) ∧
    ((setupWorkDir env w).1 = true →
      env.audioOpens env.hostAPI env.inputDevice env.outputDevice = false →
      ∃ path, Connect env w host user pass = Outcome.exited 1
        { w with fs := (mkpath w.fs (QDir env.dataLocation)).2 ++ [(path, Kind.dir)]
                 client := w.client.SetWorkDir (some path)
                 audio := none
                 trace := w.trace ++ [Event.client (ClientOp.SetWorkDir (some path))] }) := by
  constructor
  · intro h
    have h2 : (setupWorkDir env w).2 = { w with fs := (mkpath w.fs (QDir env.dataLocation)).2 } := by
      unfold setupWorkDir at h ⊢
      by_cases h1 : (mkpath w.fs (QDir env.dataLocation)).1 = true
      · simp only [h1, Bool.not_true, Bool.false_eq_true, if_false] at h ⊢
        exact setupWorkDirLoop_false _ _ _ _ h
      · simp only [h1, Bool.not_false, Bool.not_eq_true] at h ⊢
        simp [h1]
    unfold Connect
    simp only [h, h2, Bool.not_false, if_true, chatAddLine]
    rfl
  · intro h ha
    have h2 : ∃ path, (setupWorkDir env w).2 =
        { w with fs := (mkpath w.fs (QDir env.dataLocation)).2 ++ [(path, Kind.dir)]
                 client := w.client.SetWorkDir (some path)
                 trace := w.trace ++ [Event.client (ClientOp.SetWorkDir (some path))] } := by
      unfold setupWorkDir at h ⊢
      by_cases h1 : (mkpath w.fs (QDir env.dataLocation)).1 = true
      · simp only [h1, Bool.not_true, Bool.false_eq_true, if_false] at h ⊢
        exact setupWorkDirLoop_true _ _ _ _ h
      · simp [h1] at h
    obtain ⟨path, hp⟩ := h2
    refine ⟨path, ?_⟩
    unfold Connect
    simp only [h, hp, ha, Bool.not_true, Bool.false_eq_true, if_false]

/-- Witness of C6 (amended): the data location is taken by a regular file;
and the audio device does not open. -/
theorem Connect_local_failure_witness :
    Connect goodEnv (MainWindow.constructed blockedFS) "host".toList "user".toList "pass".toList
      = Outcome.running
        { MainWindow.constructed blockedFS with
          fs := (mkpath blockedFS (QDir goodEnv.dataLocation)).2
          chatOutput := [ChatLine.mk "Unable to create work directory.".toList []] } ∧
    ∃ path, Connect noAudioEnv (MainWindow.constructed dataFS) "host".toList "user".toList
        "pass".toList = Outcome.exited 1
        { MainWindow.constructed dataFS with
          fs := (mkpath dataFS (QDir noAudioEnv.dataLocation)).2 ++ [(path, Kind.dir)]
          client := (MainWindow.constructed dataFS).client.SetWorkDir (some path)
          audio := none
          trace := [Event.client (ClientOp.SetWorkDir (some path))] } :=
  ⟨(Connect_local_failure goodEnv (MainWindow.constructed blockedFS) "host".toList "user".toList
      "pass".toList).1 (by decide),
   (Connect_local_failure noAudioEnv (MainWindow.constructed dataFS) "host".toList "user".toList
      "pass".toList).2 (by decide) (by decide)⟩

/-! ## The recent-hosts list -/

/-- The loop of `removeDuplicates` yields the distinct elements that are not
in `seen`. -/
theorem removeDuplicatesLoop_eq (l : List QString) :
    ∀ seen : List QString, removeDuplicatesLoop seen l
      = (distinctElements l).filter (fun b => !seen.contains b) := by
  induction l with
  | nil => intro seen; rfl
  | cons a l ih =>
    intro seen
    unfold removeDuplicatesLoop distinctElements
    by_cases ha : seen.contains a = true
    · have ha1 : a ∈ seen := by simpa using ha
      rw [if_pos ha, ih seen, List.filter_cons_of_neg (by simp [ha1]), List.filter_filter]
      apply List.filter_congr
      intro x _
      by_cases hx : x ∈ seen
      · simp [hx]
      · have hxa : x ≠ a := fun h => hx (h ▸ ha1)
        simp [hx, hxa]
    · have ha1 : a ∉ seen := by simpa using ha
      rw [if_neg ha, ih (a :: seen), List.filter_cons_of_pos (by simp [ha1]), List.filter_filter]
      congr 1
      apply List.filter_congr
      intro x _
      by_cases hxa : x = a
      · simp [hxa]
      · simp [hxa]

/-- The call `removeDuplicates` yields the distinct elements in their
original order. -/
theorem removeDuplicates_eq (l : List QString) : removeDuplicates l = distinctElements l := by
  unfold removeDuplicates
  rw [removeDuplicatesLoop_eq]
  simp

/-- The elements of `distinctElements l` are those of `l`. -/
theorem mem_distinctElements (l : List QString) (x : QString) :
    x ∈ distinctElements l ↔ x ∈ l := by
  induction l with
  | nil => simp [distinctElements]
  | cons a l ih =>
    unfold distinctElements
    by_cases hxa : x = a
    · simp [hxa]
    · simp [hxa, ih]

/-- No element occurs twice in `distinctElements l`. -/
theorem distinctElements_nodup (l : List QString) : (distinctElements l).Nodup := by
  induction l with
  | nil => simp [distinctElements]
  | cons a l ih =>
    unfold distinctElements
    rw [List.nodup_cons]
    exact ⟨by simp, ih.filter _⟩

/-- The list `distinctElements l` keeps the order of `l`. -/
theorem distinctElements_sublist (l : List QString) : (distinctElements l).Sublist l := by
  induction l with
  | nil => simp [distinctElements]
  | cons a l ih =>
    unfold distinctElements
    exact ((List.filter_sublist _).trans ih).cons₂ a

/-- The host list that an accepted dialog stores: the accepted host, then the
first fifteen of the distinct other hosts of the stored list. -/
theorem ShowConnectDialog_hosts (env : Env) (settings : Settings) (connectDialog : ConnectDialog)
    (w : MainWindow) (hacc : connectDialog.accepted = true) :
    (ShowConnectDialog env settings connectDialog w).1.hosts
      = connectDialog.host :: (distinctOthers settings.hosts connectDialog.host).take 15 := by
  unfold ShowConnectDialog
  simp only [hacc, Bool.not_true, Bool.false_eq_true, if_false]
  rw [removeDuplicates_eq]
  unfold listMid distinctElements distinctOthers
  simp

/-- The list `distinctOthers l h` holds each element of `l` other than `h`
once, in the order of `l`. -/
theorem distinctOthers_spec (l : List QString) (h : QString) :
    (distinctOthers l h).Nodup ∧ (distinctOthers l h).Sublist l ∧
    ∀ x, x ∈ distinctOthers l h ↔ (x ∈ l ∧ x ≠ h) := by
  unfold distinctOthers
  refine ⟨(distinctElements_nodup l).filter _, (List.filter_sublist _).trans
    (distinctElements_sublist l), ?_⟩
  intro x
  simp [mem_distinctElements]

/-- C11 as stated fails: with sixteen different hosts stored and a new host
accepted, the last stored host `p` is a distinct element of the stored list
other than the new host, yet it is not in the saved list: the entries after
the first are not all the distinct other elements. -/
theorem ShowConnectDialog_drops_sixteenth_host :
    "p".toList ∈ distinctOthers sixteenHosts "q".toList ∧
    "p".toList ∉ (ShowConnectDialog goodEnv (Settings.mk sixteenHosts [] true)
      (acceptedDialog "q".toList) (MainWindow.constructed dataFS)).1.hosts ∧
    (ShowConnectDialog goodEnv (Settings.mk sixteenHosts [] true)
      (acceptedDialog "q".toList) (MainWindow.constructed dataFS)).1.hosts.tail
      ≠ distinctOthers sixteenHosts "q".toList := by
  decide

/-- C11, amended: for every stored recent-hosts list and every accepted host
`h`, the list saved by `ShowConnectDialog` has `h` as its first element,
contains no duplicate entries, has length at most 16, and its remaining
entries are the first fifteen (or all, when there are no more than fifteen)
of the distinct elements of the stored list other than `h`, in their
original relative order. -/
theorem ShowConnectDialog_saved_hosts (env : Env) (settings : Settings)
    (connectDialog : ConnectDialog) (w : MainWindow) (hacc : connectDialog.accepted = true) :
    (ShowConnectDialog env settings connectDialog w).1.hosts.head? = some connectDialog.host ∧
    (ShowConnectDialog env settings connectDialog w).1.hosts.Nodup ∧
    (ShowConnectDialog env settings connectDialog w).1.hosts.length ≤ 16 ∧
    (ShowConnectDialog env settings connectDialog w).1.hosts.tail
      = (distinctOthers settings.hosts connectDialog.host).take 15 ∧
    ((distinctOthers settings.hosts connectDialog.host).length ≤ 15 →
      (ShowConnectDialog env settings connectDialog w).1.hosts.tail
        = distinctOthers settings.hosts connectDialog.host) := by
  rw [ShowConnectDialog_hosts env settings connectDialog w hacc]
  obtain ⟨hnd, _, hmem⟩ := distinctOthers_spec settings.hosts connectDialog.host
  refine ⟨rfl, ?_, ?_, rfl, ?_⟩
  · rw [List.nodup_cons]
    refine ⟨?_, hnd.sublist (List.take_sublist _ _)⟩
    intro hin
    exact ((hmem _).mp (List.mem_of_mem_take hin)).2 rfl
  · simp only [List.length_cons, List.length_take]
    omega
  · intro hlen
    simp only [List.tail_cons]
    exact List.take_of_length_le hlen

/-- Witness of C11 (amended): the host `b` accepted over the stored list
`a`, `b`, `a`, `c`. -/
theorem ShowConnectDialog_saved_hosts_witness :
    (ShowConnectDialog goodEnv
        (Settings.mk ["a".toList, "b".toList, "a".toList, "c".toList] [] true)
        (acceptedDialog "b".toList) (MainWindow.constructed dataFS)).1.hosts
      = ["b".toList, "a".toList, "c".toList] ∧
    (ShowConnectDialog goodEnv
        (Settings.mk ["a".toList, "b".toList, "a".toList, "c".toList] [] true)
        (acceptedDialog "b".toList) (MainWindow.constructed dataFS)).1.hosts.tail
      = distinctOthers ["a".toList, "b".toList, "a".toList, "c".toList] "b".toList :=
  ⟨by decide,
   (ShowConnectDialog_saved_hosts goodEnv
      (Settings.mk ["a".toList, "b".toList, "a".toList, "c".toList] [] true)
      (acceptedDialog "b".toList) (MainWindow.constructed dataFS) rfl).2.2.2.2 (by decide)⟩

end Wahjam
